import Mathlib

/-! Quics server: serialization contract, transaction registration, registration handlers.

A shallow embedding of the Go sources

* `pkg/types/db.go` (entities, `Encode` / `Decode`, `FileMetadata` helpers),
* `pkg/network/qp/protocol.go` (`Protocol.Start`, `Protocol.RecvTransactionHandleFunc`),
* `pkg/network/qp/registration.go` (`RegistrationHandler.RegisterClient`),
* `pkg/registration/handler.go` (`Handler.registerRootDir`),

followed by the theorems that settle the claims C1 .. C10.

Conventions.  A Go `error` result is an `Option` (`none` is the nil error).  Collaborators that
live outside the repository (the transport library, the operating system, the registration
service, the packages `time` and `encoding/gob` of the standard library) are parameters or small
explicit models, each marked as such in its doc comment.
-/

namespace Quics

/-! ## `pkg/types/db.go`: file metadata -/

/-- The Go `error` values that matter here are opaque; they are told apart by a message. -/
abbrev GoError := String

/-- Go `*time.Location`, as far as the binary encoding of a `time.Time` looks at it: UTC (the
nil pointer and `time.UTC`), the zone of the machine (`time.Local`), or a location with a single
zone of the given name and offset in seconds east of UTC (`time.FixedZone(name, offset)`). -/
inductive Location where
  | utc
  | localZone
  | fixed (name : String) (offset : Int)
  deriving DecidableEq, Repr

/-- Go `time.Time`: the wall clock reading as seconds since January 1 of year 1, 00:00:00 UTC,
and nanoseconds within the second, the monotonic clock reading if the value carries one, and the
location.  The zero value of the Go type is `Time.zero`. -/
structure Time where
  sec : Int
  nsec : Nat
  mono : Option Int
  loc : Location
  deriving DecidableEq, Repr

/-- The Go zero value `time.Time{}`. -/
def Time.zero : Time := { sec := 0, nsec := 0, mono := none, loc := .utc }

/-- Seconds from January 1 of year 1 to January 1 of 1970 (`unixToInternal` of package `time`). -/
def unixToInternal : Int := 62135596800

/-- Go `t.Unix()`: seconds since January 1 of 1970 UTC. -/
def Time.unixSec (t : Time) : Int := t.sec - unixToInternal

/-- Go `t.IsZero()`: the instant is January 1 of year 1, 00:00:00 UTC, whatever the location. -/
def Time.IsZero (t : Time) : Bool := t.sec == 0 && t.nsec == 0

/-- A Go `int64` computed without overflow check: the value modulo `2^64`, as a signed number. -/
def wrapInt64 (z : Int) : Int := (z + 2 ^ 63) % 2 ^ 64 - 2 ^ 63

/-- Go `t.UnixNano()`: nanoseconds since January 1 of 1970 UTC, as an `int64` that wraps around
for dates it cannot hold. -/
def Time.UnixNano (t : Time) : Int := wrapInt64 (t.unixSec * 1000000000 + t.nsec)

/-- Go `os.FileMode` (a `uint32` of permission and type bits). -/
abbrev FileMode := Nat

/-- The struct `fileinfo.FileInfo` of the quics-protocol library, of which `FileMetadata` is a
defined type (`type FileMetadata fileinfo.FileInfo`).  The declaration is outside the repository;
its five fields are the ones the repository reads and writes (`Name`, `Size`, `Mode`, `ModTime`,
`IsDir`), which are also the attributes the data model lists for the entity. -/
structure FileMetadata where
  Name : String
  Size : Int
  Mode : FileMode
  ModTime : Time
  IsDir : Bool
  deriving DecidableEq, Repr

/-- The Go zero value of `FileMetadata`. -/
def FileMetadata.zero : FileMetadata :=
  { Name := "", Size := 0, Mode := 0, ModTime := Time.zero, IsDir := false }

/-- Go `os.FileInfo`: an interface value, given by what its five getters return. -/
structure OSFileInfo where
  name : String
  size : Int
  mode : FileMode
  modTime : Time
  isDir : Bool
  deriving DecidableEq, Repr

/-- `NewFileMetadataFromOSFileInfo` (db.go 171-179). -/
def NewFileMetadataFromOSFileInfo (fileinfo : OSFileInfo) : FileMetadata :=
  { Name := fileinfo.name
    Size := fileinfo.size
    Mode := fileinfo.mode
    ModTime := fileinfo.modTime
    IsDir := fileinfo.isDir }

/-- `FileMetadata.DecodeFromOSFileInfo` (db.go 206-212): five assignments through the receiver
pointer, one after the other; the result is the receiver after the call. -/
def FileMetadata.DecodeFromOSFileInfo (fileMetadata : FileMetadata) (fileInfo : OSFileInfo) :
    FileMetadata :=
  let m1 := { fileMetadata with Name := fileInfo.name }
  let m2 := { m1 with Size := fileInfo.size }
  let m3 := { m2 with Mode := fileInfo.mode }
  let m4 := { m3 with ModTime := fileInfo.modTime }
  { m4 with IsDir := fileInfo.isDir }

/-! ## `pkg/network/qp/protocol.go` -/

/-- What the call `p.Proto.ListenWithTransaction(...)` of the transport library can do, seen from
the goroutine that makes it: return an error value (`none` is nil) or keep serving and never
return. -/
inductive ListenOutcome where
  | returned (err : Option GoError)
  | serving
  deriving DecidableEq, Repr

/-- The struct `Protocol` (protocol.go 14-20), with the handler type `H` and the transport object
type `QP` of the external library left abstract.  `Pool` plays no part in the two methods below
and is left out, `udpaddr` and `tlsConf` are kept as the values handed to the listener. -/
structure Protocol (H QP : Type) where
  udpaddr : Nat
  tlsConf : Nat
  initialTransaction : Option H
  Proto : QP

/-- A call of the transport library made by a method of `Protocol`. -/
inductive ProtoCall (H : Type) where
  | RecvTransactionHandleFunc (transactionName : String) (handleFunc : H)
  | ListenWithTransaction (udpaddr tlsConf : Nat) (initialTransaction : Option H)
  deriving DecidableEq, Repr

/-- The values the goroutine of `Start` sends on `errChan` (protocol.go 60-67): the error of the
listen call when it is not nil, nothing otherwise. -/
def Protocol.goroutineSends : ListenOutcome → List (Option GoError)
  | .returned (some err) => [some err]
  | .returned none => []
  | .serving => []

/-- The result of running `Start`. -/
structure StartRun (H : Type) where
  /-- The calls made on `p.Proto`. -/
  calls : List (ProtoCall H)
  /-- The values sent on `errChan`. -/
  sent : List (Option GoError)
  /-- Whether the line "QUIC-S protocol listening successfully." was printed. -/
  printed : Bool
  /-- The outcome: `none` when `Start` stays blocked on `<-errChan`, `some r` when it returns the
  error value `r`. -/
  result : Option (Option GoError)
  deriving DecidableEq, Repr

/-- `Protocol.Start` (protocol.go 58-76).  `listen` is the external `ListenWithTransaction`.
`errChan` is unbuffered and has the goroutine as its only sender, so the receive `<-errChan`
yields the first value the goroutine sends and blocks for good when it sends none. -/
def Protocol.Start {H QP : Type} (listen : Nat → Nat → Option H → ListenOutcome)
    (p : Protocol H QP) : StartRun H :=
  let calls := [ProtoCall.ListenWithTransaction p.udpaddr p.tlsConf p.initialTransaction]
  let sent := Protocol.goroutineSends (listen p.udpaddr p.tlsConf p.initialTransaction)
  match sent with
  | [] => { calls := calls, sent := sent, printed := false, result := none }
  | err :: _ =>
    if err ≠ none then
      { calls := calls, sent := sent, printed := false, result := some err }
    else
      { calls := calls, sent := sent, printed := true, result := some none }

/-- `Protocol.RecvTransactionHandleFunc` (protocol.go 78-89).  `REGISTERCLIENT` is the constant
`types.REGISTERCLIENT`, declared outside the files at hand; `protoRecv` is the method
`RecvTransactionHandleFunc` of the external transport object, which returns the updated object
and an error value.  The result is the receiver after the call, the calls made on `p.Proto`, and
the returned error. -/
def Protocol.RecvTransactionHandleFunc {H QP : Type} (REGISTERCLIENT : String)
    (protoRecv : QP → String → H → QP × Option GoError)
    (p : Protocol H QP) (transactionName : String) (handleFunc : H) :
    Protocol H QP × List (ProtoCall H) × Option GoError :=
  if transactionName = REGISTERCLIENT then
    ({ p with initialTransaction := some handleFunc }, [], none)
  else
    let r := protoRecv p.Proto transactionName handleFunc
    let calls := [ProtoCall.RecvTransactionHandleFunc transactionName handleFunc]
    match r.2 with
    | some err => ({ p with Proto := r.1 }, calls, some err)
    | none => ({ p with Proto := r.1 }, calls, none)

/-! ## `pkg/types/db.go`: `FileMetadata.WriteToFile` -/

/-- An entry of the file system, as far as `WriteToFile` touches it.  The two times are what the
system stores: nanoseconds since January 1 of 1970 UTC. -/
structure FSNode where
  isDir : Bool
  mode : FileMode
  size : Nat
  accessTime : Int
  modTime : Int
  deriving DecidableEq, Repr

/-- The file system: the entry found at each path (the first pair with that path).  Permissions
are not checked: no call below is refused for lack of access rights. -/
abbrev FS := List (String × FSNode)

/-- The entry at `path`, if any. -/
def FS.stat (fs : FS) (path : String) : Option FSNode :=
  (fs.find? (fun e => e.1 = path)).map (fun e => e.2)

/-- Replace the entry at `path` by `f` of it. -/
def FS.modify (fs : FS) (path : String) (f : FSNode → FSNode) : FS :=
  fs.map (fun e => if e.1 = path then (e.1, f e.2) else e)

/-- The path of the directory that holds `path`: what precedes the last slash, "/" for an entry
of the root and "." for a path without slash. -/
def parentDir (path : String) : String :=
  match path.toList.reverse.dropWhile (fun c => c != '/') with
  | [] => "."
  | _ :: rest => if rest.isEmpty then "/" else String.mk rest.reverse

/-- Whether a directory exists at `dir`; the root and the working directory always do. -/
def FS.hasDir (fs : FS) (dir : String) : Bool :=
  dir == "/" || dir == "." ||
    (match fs.stat dir with
     | some n => n.isDir
     | none => false)

/-- Go `os.Open(path)`, a call of the standard library: it opens the file or directory at `path`
for reading and never creates anything; when nothing exists at `path` it returns an error. -/
def osOpen (fs : FS) (path : String) : Except GoError Unit :=
  match fs.stat path with
  | some _ => .ok ()
  | none => .error ("open " ++ path ++ ": no such file or directory")

/-- Go `os.OpenFile(path, O_RDWR|O_CREATE|O_TRUNC, mode)` at the time `now`: an existing regular
file is truncated, a directory cannot be opened for writing, and when nothing exists at `path` a
regular file with permission `mode` is created, provided the directory that is to hold it
exists. -/
def osOpenFileCreateTrunc (now : Time) (fs : FS) (path : String) (mode : FileMode) :
    FS × Option GoError :=
  match fs.stat path with
  | some n =>
    if n.isDir then (fs, some ("open " ++ path ++ ": is a directory"))
    else (fs.modify path (fun n => { n with size := 0, modTime := now.UnixNano }), none)
  | none =>
    if fs.hasDir (parentDir path) then
      (fs ++ [(path, { isDir := false, mode := mode, size := 0, accessTime := now.UnixNano,
                       modTime := now.UnixNano })], none)
    else (fs, some ("open " ++ path ++ ": no such file or directory"))

/-- Go `file.Chmod(mode)` on the file opened at `path`. -/
def fileChmod (fs : FS) (path : String) (mode : FileMode) : FS × Option GoError :=
  match fs.stat path with
  | some _ => (fs.modify path (fun n => { n with mode := mode }), none)
  | none => (fs, some ("chmod " ++ path ++ ": no such file or directory"))

/-- Go `os.Chtimes(path, atime, mtime)`: each file time is set to `UnixNano()` of the given
`time.Time`, except that a zero `time.Time` leaves the file time as it is. -/
def osChtimes (fs : FS) (path : String) (atime mtime : Time) : FS × Option GoError :=
  match fs.stat path with
  | some _ =>
    (fs.modify path (fun n =>
      { n with accessTime := if atime.IsZero then n.accessTime else atime.UnixNano
               modTime := if mtime.IsZero then n.modTime else mtime.UnixNano }), none)
  | none => (fs, some ("chtimes " ++ path ++ ": no such file or directory"))

/-- `FileMetadata.WriteToFile` (db.go 214-252), on the file system `fs`, with `now` the value of
`time.Now()`.  The result is the file system after the call and the returned error. -/
def FileMetadata.WriteToFile (now : Time) (fileMetadata : FileMetadata) (path : String) (fs : FS) :
    FS × Option GoError :=
  if fileMetadata.IsDir then
    match osOpen fs path with
    | .error err => (fs, some err)
    | .ok () =>
      match fileChmod fs path fileMetadata.Mode with
      | (fs1, some err) => (fs1, some err)
      | (fs1, none) =>
        match osChtimes fs1 path now fileMetadata.ModTime with
        | (fs2, some err) => (fs2, some err)
        | (fs2, none) => (fs2, none)
  else
    match osOpenFileCreateTrunc now fs path fileMetadata.Mode with
    | (fs0, some err) => (fs0, some err)
    | (fs0, none) =>
      match fileChmod fs0 path fileMetadata.Mode with
      | (fs1, some err) => (fs1, some err)
      | (fs1, none) =>
        match osChtimes fs1 path now fileMetadata.ModTime with
        | (fs2, some err) => (fs2, some err)
        | (fs2, none) => (fs2, none)

/-! ## `pkg/network/qp/registration.go`: `RegistrationHandler.RegisterClient` -/

/-- A message on the transaction stream. -/
abbrev Message := List Nat

/-- What the handler does that is visible outside it, in order. -/
inductive HandlerEvent (Conn Req : Type) where
  | recv
  | log (err : GoError)
  | serviceRegisterClient (request : Req) (conn : Conn)
  | send (data : Message)
  deriving DecidableEq, Repr

/-- The collaborators of `RegisterClient`, all outside the file: the stream of the transaction
(`RecvBMessage`, `SendBMessage`), the codec of `types.ClientRegisterReq` and of the response, and
the registration service.  A Go pair `(value, err)` is an `Except`. -/
structure RegisterClientEnv (Conn Req Resp : Type) where
  RecvBMessage : Except GoError Message
  requestDecode : Message → Except GoError Req
  serviceRegisterClient : Req → Conn → Except GoError Resp
  responseEncode : Resp → Except GoError Message
  SendBMessage : Message → Option GoError

/-- `RegistrationHandler.RegisterClient` (registration.go 28-58): the events of the call and the
returned error. -/
def RegistrationHandler.RegisterClient {Conn Req Resp : Type}
    (env : RegisterClientEnv Conn Req Resp) (conn : Conn) :
    List (HandlerEvent Conn Req) × Option GoError :=
  match env.RecvBMessage with
  | .error err => ([.recv, .log err], some err)
  | .ok data =>
    match env.requestDecode data with
    | .error err => ([.recv, .log err], some err)
    | .ok request =>
      match env.serviceRegisterClient request conn with
      | .error err => ([.recv, .serviceRegisterClient request conn, .log err], some err)
      | .ok response =>
        match env.responseEncode response with
        | .error err => ([.recv, .serviceRegisterClient request conn, .log err], some err)
        | .ok data =>
          match env.SendBMessage data with
          | some err =>
            ([.recv, .serviceRegisterClient request conn, .send data, .log err], some err)
          | none => ([.recv, .serviceRegisterClient request conn, .send data], none)

/-- The messages sent on the stream among the events of a call. -/
def sentMessages {Conn Req : Type} : List (HandlerEvent Conn Req) → List Message
  | [] => []
  | .send data :: rest => data :: sentMessages rest
  | _ :: rest => sentMessages rest

/-- The calls of the registration service among the events of a call. -/
def serviceCalls {Conn Req : Type} : List (HandlerEvent Conn Req) → List (Req × Conn)
  | [] => []
  | .serviceRegisterClient request conn :: rest => (request, conn) :: serviceCalls rest
  | _ :: rest => serviceCalls rest

/-! ## `pkg/registration/handler.go`: `Handler.registerRootDir` -/

/-- What `registerRootDir` does to the response and the log, in order. -/
inductive HTTPEvent (Msg : Type) where
  | httpError (text : String) (code : Nat)
  | logFatalf (text : String)
  | setHeader (key value : String)
  | encodeJSON (message : Msg)
  deriving DecidableEq, Repr

/-- How a call of the handler ends: it returns to the HTTP server, or the process exits with a
status code. -/
inductive HandlerEnd where
  | returned
  | processExit (code : Nat)
  deriving DecidableEq, Repr

def StatusBadRequest : Nat := 400

def StatusInternalServerError : Nat := 500

/-- Go `log.Fatalf`, a call of the standard library: it writes the message to the log and then
calls `os.Exit(1)`, so nothing after it runs. -/
def logFatalf {Msg : Type} (events : List (HTTPEvent Msg)) (text : String) :
    List (HTTPEvent Msg) × HandlerEnd :=
  (events ++ [.logFatalf text], .processExit 1)

/-- `Handler.registerRootDir` (handler.go 39-56).  `jsonDecode` is the JSON decoding of the
request body into a `sync.RegisterRootDirRequest`, `RegisterRootDir` the service method; both are
outside the file. -/
def Handler.registerRootDir {Body Req Msg : Type}
    (jsonDecode : Body → Except GoError Req) (RegisterRootDir : Req → Except GoError Msg)
    (body : Body) : List (HTTPEvent Msg) × HandlerEnd :=
  match jsonDecode body with
  | .error err =>
    logFatalf
      [.httpError "Faield to create client because of wrong request data" StatusBadRequest]
      ("Error while decoding request data: " ++ err)
  | .ok request =>
    match RegisterRootDir request with
    | .error err =>
      logFatalf [.httpError "Faield to register root directory" StatusInternalServerError]
        ("Error while returning response data: " ++ err)
    | .ok message =>
      ([.setHeader "Content-Type" "application/json", .encodeJSON message], .returned)

/-! ## `pkg/types/db.go`: the entities

A Go slice is `nil` or a view of a backing array: the elements up to its length and the elements
of the array between its length and its capacity (`spare`), which the slice does not show but
which a decoder that lengthens the slice brings back.  A Go map with string keys is nil (`none`)
or the list of its entries.  The unsigned integer fields are natural numbers and the signed ones
integers; `WellTyped` says they fit their Go types and that no map holds a key twice. -/

/-- A Go slice value. -/
inductive GoSlice (α : Type) where
  | nil
  | mk (elems : List α) (spare : List α)
  deriving DecidableEq, Repr

/-- The elements of the slice (`len(s)` of them). -/
def GoSlice.elems {α : Type} : GoSlice α → List α
  | .nil => []
  | .mk es _ => es

/-- The backing array from the start of the slice (`cap(s)` elements). -/
def GoSlice.backing {α : Type} : GoSlice α → List α
  | .nil => []
  | .mk es sp => es ++ sp

/-- Go `cap(s)`. -/
def GoSlice.cap {α : Type} (s : GoSlice α) : Nat := s.backing.length

/-- Go `s[:n]` for `n` within the capacity (`reflect.Value.SetLen`). -/
def GoSlice.setLen {α : Type} (s : GoSlice α) (n : Nat) : GoSlice α :=
  match s with
  | .nil => .nil
  | .mk es sp => .mk ((es ++ sp).take n) ((es ++ sp).drop n)

/-- The slice after its elements have been overwritten by `new`. -/
def GoSlice.setElems {α : Type} (s : GoSlice α) (new : List α) : GoSlice α :=
  match s with
  | .nil => .nil
  | .mk _ sp => .mk new sp

/-- A Go map with string keys. -/
abbrev GoMap (V : Type) := Option (List (String × V))

/-- `RootDirectory` (db.go 41-47). -/
structure RootDirectory where
  AfterPath : String
  BeforePath : String
  Owner : String
  Password : String
  UUIDs : GoSlice String
  deriving DecidableEq, Repr

/-- `Client` (db.go 33-38). -/
structure Client where
  UUID : String
  Id : Nat
  Ip : String
  Root : GoSlice RootDirectory
  deriving DecidableEq, Repr

/-- `FileHistory` (db.go 64-72). -/
structure FileHistory where
  AfterPath : String
  BeforePath : String
  Date : String
  UUID : String
  Timestamp : Nat
  Hash : String
  File : FileMetadata
  deriving DecidableEq, Repr

/-- `Conflict` (db.go 77-80). -/
structure Conflict where
  AfterPath : String
  StagingFiles : GoMap FileHistory
  deriving DecidableEq, Repr

/-- `File` (db.go 50-61). -/
structure File where
  AfterPath : String
  BeforePath : String
  RootDirKey : String
  LatestHash : String
  LatestSyncTimestamp : Nat
  LatestEditClient : String
  ContentsExisted : Bool
  NeedForceSync : Bool
  Conflict : Conflict
  Metadata : FileMetadata
  deriving DecidableEq, Repr

/-- `Sharing` (db.go 83-89). -/
structure Sharing where
  Link : String
  Count : Nat
  MaxCount : Nat
  Owner : String
  File : File
  deriving DecidableEq, Repr

def RootDirectory.zero : RootDirectory :=
  { AfterPath := "", BeforePath := "", Owner := "", Password := "", UUIDs := .nil }

def Client.zero : Client := { UUID := "", Id := 0, Ip := "", Root := .nil }

def FileHistory.zero : FileHistory :=
  { AfterPath := "", BeforePath := "", Date := "", UUID := "", Timestamp := 0, Hash := "",
    File := FileMetadata.zero }

def Conflict.zero : Conflict := { AfterPath := "", StagingFiles := none }

def File.zero : File :=
  { AfterPath := "", BeforePath := "", RootDirKey := "", LatestHash := "",
    LatestSyncTimestamp := 0, LatestEditClient := "", ContentsExisted := false,
    NeedForceSync := false, Conflict := Conflict.zero, Metadata := FileMetadata.zero }

def Sharing.zero : Sharing :=
  { Link := "", Count := 0, MaxCount := 0, Owner := "", File := File.zero }

/-- The value fits a Go `int64`. -/
def FitsInt64 (z : Int) : Prop := -(2 ^ 63) ≤ z ∧ z < 2 ^ 63

instance (z : Int) : Decidable (FitsInt64 z) := inferInstanceAs (Decidable (_ ∧ _))

/-- The entries are those of a Go map: no key occurs twice. -/
def KeysDistinct {V : Type} (m : List (String × V)) : Prop :=
  (List.map (fun (e : String × V) => e.1) m).Nodup

instance {V : Type} (m : List (String × V)) : Decidable (KeysDistinct m) :=
  inferInstanceAs (Decidable (List.map (fun (e : String × V) => e.1) m).Nodup)

/-- `Size` is an `int64` and `Mode` a `uint32`. -/
def FileMetadata.WellTyped (m : FileMetadata) : Prop := FitsInt64 m.Size ∧ m.Mode < 2 ^ 32

instance (m : FileMetadata) : Decidable m.WellTyped := inferInstanceAs (Decidable (_ ∧ _))

/-- `Id` is a `uint64`. -/
def Client.WellTyped (c : Client) : Prop := c.Id < 2 ^ 64

instance (c : Client) : Decidable c.WellTyped := inferInstanceAs (Decidable (_ < _))

/-- `Timestamp` is a `uint64`. -/
def FileHistory.WellTyped (h : FileHistory) : Prop := h.Timestamp < 2 ^ 64 ∧ h.File.WellTyped

instance (h : FileHistory) : Decidable h.WellTyped := inferInstanceAs (Decidable (_ ∧ _))

/-- The staged versions are well typed and no key occurs twice. -/
def Conflict.WellTyped (c : Conflict) : Prop :=
  KeysDistinct (c.StagingFiles.getD []) ∧ ∀ e ∈ c.StagingFiles.getD [], e.2.WellTyped

instance (c : Conflict) : Decidable c.WellTyped := inferInstanceAs (Decidable (_ ∧ _))

/-- `LatestSyncTimestamp` is a `uint64`. -/
def File.WellTyped (f : File) : Prop :=
  f.LatestSyncTimestamp < 2 ^ 64 ∧ f.Conflict.WellTyped ∧ f.Metadata.WellTyped

instance (f : File) : Decidable f.WellTyped := inferInstanceAs (Decidable (_ ∧ _))

/-- `Count` and `MaxCount` are of type `uint`, 64 bits wide on the platforms at hand. -/
def Sharing.WellTyped (s : Sharing) : Prop :=
  s.Count < 2 ^ 64 ∧ s.MaxCount < 2 ^ 64 ∧ s.File.WellTyped

instance (s : Sharing) : Decidable s.WellTyped := inferInstanceAs (Decidable (_ ∧ _))

/-! ## The binary encoding of `time.Time`

`time.Time` encodes itself for gob (`GobEncode` is `MarshalBinary`, `GobDecode` is
`UnmarshalBinary`; package `time` of the standard library).  `tz` gives the offset of
`time.Local`, in seconds east of UTC, at each Unix time. -/

/-- The bytes written by `MarshalBinary`, field by field: the version, the seconds, the
nanoseconds, the zone offset in minutes (`-1` stands for UTC) and, in version 2, the byte that
holds the seconds of the zone offset. -/
structure TimeWire where
  version : Nat
  sec : Int
  nsec : Nat
  offsetMin : Int
  offsetSec : Nat
  deriving DecidableEq, Repr

/-- The zone offset of the time, in seconds east of UTC (`t.Zone()`). -/
def Time.zoneOffset (tz : Int → Int) (t : Time) : Int :=
  match t.loc with
  | .utc => 0
  | .localZone => tz t.unixSec
  | .fixed _ offset => offset

/-- The payload `MarshalBinary` writes for a time outside UTC: version 2 when the zone offset is
not a whole number of minutes; the quotient and remainder are those of Go (truncated). -/
def Time.wireZoned (tz : Int → Int) (t : Time) : TimeWire :=
  { version := if (t.zoneOffset tz).tmod 60 ≠ 0 then 2 else 1
    sec := t.sec
    nsec := t.nsec
    offsetMin := (t.zoneOffset tz).tdiv 60
    offsetSec := ((t.zoneOffset tz).tmod 60 % 256).toNat }

/-- Go `t.MarshalBinary()`. -/
def Time.MarshalBinary (tz : Int → Int) (t : Time) : Except GoError TimeWire :=
  match t.loc with
  | .utc => .ok { version := 1, sec := t.sec, nsec := t.nsec, offsetMin := -1, offsetSec := 0 }
  | _ =>
    let offset := (t.zoneOffset tz).tdiv 60
    if offset < -32768 ∨ offset = -1 ∨ offset > 32767 then
      .error "Time.MarshalBinary: unexpected zone offset"
    else .ok (t.wireZoned tz)

/-- Go `t.UnmarshalBinary(data)`: the receiver is overwritten as a whole.  The offset is the
minutes times sixty plus, in version 2, the seconds byte, which the library adds as the unsigned
number it reads; the offset `-60` is the mark of UTC, the offset of the machine at that time
gives `time.Local`, any other an unnamed fixed zone. -/
def Time.UnmarshalBinary (tz : Int → Int) (w : TimeWire) : Except GoError Time :=
  if w.version ≠ 1 ∧ w.version ≠ 2 then .error "Time.UnmarshalBinary: unsupported version"
  else
    let offset := w.offsetMin * 60 + (if w.version = 2 then (w.offsetSec : Int) else 0)
    let unix := w.sec - unixToInternal
    if offset = -1 * 60 then .ok { sec := w.sec, nsec := w.nsec, mono := none, loc := .utc }
    else if offset = tz unix then
      .ok { sec := w.sec, nsec := w.nsec, mono := none, loc := .localZone }
    else .ok { sec := w.sec, nsec := w.nsec, mono := none, loc := .fixed "" offset }

/-! ## The `encoding/gob` calls made by `Encode` and `Decode`

Every `Encode` of db.go is `gob.NewEncoder(&buffer).Encode(x)` followed by `buffer.Bytes()`, and
every `Decode` is `gob.NewDecoder(bytes.NewBuffer(data)).Decode(x)`.  The package `encoding/gob`
belongs to the Go standard library, not to the repository.  What follows is its transmission rule
for the struct types of db.go:

* a struct is sent as the sequence of its fields, each with its field number; a field that holds
  the zero value of its type is left out: an empty string, a zero number, false, a slice of
  length zero (nil or not), a nil map, the zero `time.Time`; a field of struct type is always
  sent;
* the elements of a slice and the keys and values of a map are always sent, zero or not;
* when a field cannot be encoded the encoder returns the error and writes no value;
* the decoder writes the fields it receives into the receiver and does not touch the others;
  a received struct field is decoded into the struct the receiver holds in that field; a received
  map is decoded entry by entry into the map the receiver holds, made first if it is nil (a key
  or value is decoded into a fresh zero value first); a received slice of `n` elements is decoded
  into the first `n` elements of the backing array of the slice the receiver holds when its
  capacity is at least `n`, each element over what the array held there, and into `n` fresh zero
  elements otherwise.

The byte sequence is represented by the values it carries (`GobStream`); the type descriptors
that precede a value on the wire, and the framing of the messages in bytes, are not represented.
The streams considered are those written for the struct declarations of db.go, in which a field
is identified by its number. -/

/-- A value as `encoding/gob` transmits it. -/
inductive GobValue where
  | uint (n : Nat)
  | int (i : Int)
  | bool (b : Bool)
  | string (s : String)
  | gobEncoder (w : TimeWire)
  | struct (fields : List (Nat × GobValue))
  | slice (elems : List GobValue)
  | map (entries : List (GobValue × GobValue))

/-- The contents of a buffer written by gob encoders: the values sent, in order. -/
abbrev GobStream := List GobValue

def errTypeMismatch : GoError := "gob: type mismatch"

def errFieldOutOfBounds : GoError := "gob: field numbers out of bounds"

def errOutOfRange : GoError := "gob: value out of range"

def errEOF : GoError := "EOF"

/-- A string field number `i`: left out when empty. -/
def sendString (i : Nat) (s : String) : List (Nat × GobValue) :=
  if s = "" then [] else [(i, .string s)]

/-- An unsigned integer field: left out when zero. -/
def sendUint (i : Nat) (n : Nat) : List (Nat × GobValue) :=
  if n = 0 then [] else [(i, .uint n)]

/-- A signed integer field: left out when zero. -/
def sendInt (i : Nat) (z : Int) : List (Nat × GobValue) :=
  if z = 0 then [] else [(i, .int z)]

/-- A boolean field: left out when false. -/
def sendBool (i : Nat) (b : Bool) : List (Nat × GobValue) :=
  if b = false then [] else [(i, .bool b)]

/-- A `time.Time` field: left out when it is the zero value `time.Time{}`; otherwise the field
is what `GobEncode` returns, or its error. -/
def sendTime (tz : Int → Int) (i : Nat) (t : Time) : Except GoError (List (Nat × GobValue)) :=
  if t = Time.zero then .ok []
  else
    match t.MarshalBinary tz with
    | .error err => .error err
    | .ok w => .ok [(i, .gobEncoder w)]

/-- A field of struct type: always sent. -/
def sendStruct (i : Nat) (fields : List (Nat × GobValue)) : List (Nat × GobValue) :=
  [(i, .struct fields)]

/-- A slice field, given the encoded elements: left out when the slice has length zero. -/
def sendSlice (i : Nat) (elems : List GobValue) : List (Nat × GobValue) :=
  match elems with
  | [] => []
  | _ :: _ => [(i, .slice elems)]

/-- A map field, given the encoded entries: left out when the map is nil; an empty map that is
not nil is sent, with no entry. -/
def sendMap (i : Nat) (entries : Option (List (GobValue × GobValue))) : List (Nat × GobValue) :=
  match entries with
  | none => []
  | some es => [(i, .map es)]

def recvString : GobValue → Except GoError String
  | .string s => .ok s
  | _ => .error errTypeMismatch

/-- An unsigned integer received for a field of `bits` bits. -/
def recvUint (bits : Nat) : GobValue → Except GoError Nat
  | .uint n => if n < 2 ^ bits then .ok n else .error errOutOfRange
  | _ => .error errTypeMismatch

/-- A signed integer received for an `int64` field. -/
def recvInt64 : GobValue → Except GoError Int
  | .int z => if FitsInt64 z then .ok z else .error errOutOfRange
  | _ => .error errTypeMismatch

def recvBool : GobValue → Except GoError Bool
  | .bool b => .ok b
  | _ => .error errTypeMismatch

/-- A received `time.Time`: `GobDecode` on the payload. -/
def recvTime (tz : Int → Int) : GobValue → Except GoError Time
  | .gobEncoder w => Time.UnmarshalBinary tz w
  | _ => .error errTypeMismatch

/-- The received elements, each decoded by `dec` into the element the slice holds at its
position. -/
def decodeElems {α : Type} (dec : α → GobValue → Except GoError α) :
    List α → List GobValue → Except GoError (List α)
  | _, [] => .ok []
  | [], _ :: _ => .error errTypeMismatch
  | old :: olds, v :: vs =>
    match dec old v with
    | .error err => .error err
    | .ok x =>
      match decodeElems dec olds vs with
      | .error err => .error err
      | .ok xs => .ok (x :: xs)

/-- The slice decoder on the slice `s` of the receiver: with capacity for the received elements
the slice is set to their number and keeps its backing array, otherwise a slice of that many
zero elements is made; then each element is decoded in place. -/
def decodeSlice {α : Type} (dec : α → GobValue → Except GoError α) (zero : α) (s : GoSlice α)
    (vs : List GobValue) : Except GoError (GoSlice α) :=
  let target :=
    if s.cap < vs.length then GoSlice.mk (List.replicate vs.length zero) []
    else s.setLen vs.length
  (decodeElems dec target.elems vs).map target.setElems

def recvSlice {α : Type} (dec : α → GobValue → Except GoError α) (zero : α) (s : GoSlice α) :
    GobValue → Except GoError (GoSlice α)
  | .slice elems => decodeSlice dec zero s elems
  | _ => .error errTypeMismatch

/-- Go `m[k] = v` on a map held as the list of its entries. -/
def mapInsert {V : Type} (m : List (String × V)) (k : String) (v : V) : List (String × V) :=
  if m.any (fun e => e.1 = k) then m.map (fun e => if e.1 = k then (k, v) else e)
  else m ++ [(k, v)]

/-- The entries of a received map, each decoded and stored in the map `m` of the receiver. -/
def decodeMap {V : Type} (decV : GobValue → Except GoError V) :
    List (String × V) → List (GobValue × GobValue) → Except GoError (List (String × V))
  | m, [] => .ok m
  | m, (k, v) :: rest =>
    match recvString k with
    | .error err => .error err
    | .ok k1 =>
      match decV v with
      | .error err => .error err
      | .ok v1 => decodeMap decV (mapInsert m k1 v1) rest

/-- A received map, decoded into the map `m` of the receiver, which is made first when nil. -/
def recvMap {V : Type} (decV : GobValue → Except GoError V) (m : GoMap V) :
    GobValue → Except GoError (GoMap V)
  | .map entries => (decodeMap decV (m.getD []) entries).map some
  | _ => .error errTypeMismatch

/-- The loop of the struct decoder: each received field, in order, is stored in the receiver by
`setField`; the first error ends the decoding. -/
def decodeStruct {T : Type} (setField : T → Nat → GobValue → Except GoError T) :
    T → List (Nat × GobValue) → Except GoError T
  | r, [] => .ok r
  | r, (i, v) :: rest =>
    match setField r i v with
    | .error err => .error err
    | .ok r1 => decodeStruct setField r1 rest

/-- A received value decoded as a struct into the receiver `r`. -/
def recvStruct {T : Type} (setField : T → Nat → GobValue → Except GoError T) (r : T) :
    GobValue → Except GoError T
  | .struct fields => decodeStruct setField r fields
  | _ => .error errTypeMismatch

/-- Go `encoder.Encode(x)` on `buffer`, given the fields of `x` as the encoder computes them:
the value is appended to the buffer, or the error is returned and no value is written. -/
def encoderEncode (fields : Except GoError (List (Nat × GobValue))) (buffer : GobStream) :
    GobStream × Option GoError :=
  match fields with
  | .ok fs => (buffer ++ [.struct fs], none)
  | .error err => (buffer, some err)

/-- Go `decoder.Decode(x)` on a buffer holding `data`: the next value of the buffer is decoded
into the receiver; an empty buffer is the error `io.EOF`. -/
def decoderDecode {T : Type} (setField : T → Nat → GobValue → Except GoError T) (r : T)
    (data : GobStream) : Except GoError T :=
  match data with
  | [] => .error errEOF
  | v :: _ => recvStruct setField r v

/-- What a call of `Encode` does: the lines it logs and the bytes it returns. -/
structure EncodeRun where
  logged : List String
  bytes : GobStream

/-- The body shared by the `Encode` methods of db.go: a new buffer, `encoder.Encode`, a log line
with the prefix of the method when that returns an error, and `buffer.Bytes()` in either case. -/
def encodeWithLog (logTag : String) (fields : Except GoError (List (Nat × GobValue))) :
    EncodeRun :=
  match encoderEncode fields [] with
  | (buffer, some err) => { logged := [logTag ++ err], bytes := buffer }
  | (buffer, none) => { logged := [], bytes := buffer }

/-! ## `pkg/types/db.go`: `Encode` and `Decode` of each entity

For each entity, `gobFields` computes the fields the encoder sends, in the order of the struct
declaration (field numbers from 0), or the error of the first field that cannot be encoded, and
`setField` is what the decoder does with one received field.  `Encode` returns what the buffer
holds after `encoder.Encode`, with or without error; `Decode` returns the receiver after a
successful call, or the error (what a failed call leaves in the receiver is not represented). -/

def FileMetadata.gobFields (tz : Int → Int) (m : FileMetadata) :
    Except GoError (List (Nat × GobValue)) :=
  match sendTime tz 3 m.ModTime with
  | .error err => .error err
  | .ok modTime =>
    .ok (sendString 0 m.Name ++ sendInt 1 m.Size ++ sendUint 2 m.Mode ++ modTime ++
      sendBool 4 m.IsDir)

def FileMetadata.setField (tz : Int → Int) (m : FileMetadata) :
    Nat → GobValue → Except GoError FileMetadata
  | 0, v => (recvString v).map (fun x => { m with Name := x })
  | 1, v => (recvInt64 v).map (fun x => { m with Size := x })
  | 2, v => (recvUint 32 v).map (fun x => { m with Mode := x })
  | 3, v => (recvTime tz v).map (fun x => { m with ModTime := x })
  | 4, v => (recvBool v).map (fun x => { m with IsDir := x })
  | _, _ => .error errFieldOutOfBounds

/-- `FileMetadata.Encode` (db.go 181-189). -/
def FileMetadata.Encode (tz : Int → Int) (fileMetadata : FileMetadata) : EncodeRun :=
  encodeWithLog "quics: (FileMetadata.Encode) " (fileMetadata.gobFields tz)

/-- `FileMetadata.Decode` (db.go 191-195). -/
def FileMetadata.Decode (tz : Int → Int) (fileMetadata : FileMetadata) (data : GobStream) :
    Except GoError FileMetadata :=
  decoderDecode (FileMetadata.setField tz) fileMetadata data

def RootDirectory.gobFields (r : RootDirectory) : List (Nat × GobValue) :=
  sendString 0 r.AfterPath ++ sendString 1 r.BeforePath ++ sendString 2 r.Owner ++
    sendString 3 r.Password ++ sendSlice 4 (r.UUIDs.elems.map GobValue.string)

def RootDirectory.setField (r : RootDirectory) : Nat → GobValue → Except GoError RootDirectory
  | 0, v => (recvString v).map (fun x => { r with AfterPath := x })
  | 1, v => (recvString v).map (fun x => { r with BeforePath := x })
  | 2, v => (recvString v).map (fun x => { r with Owner := x })
  | 3, v => (recvString v).map (fun x => { r with Password := x })
  | 4, v => (recvSlice (fun _ w => recvString w) "" r.UUIDs v).map (fun x => { r with UUIDs := x })
  | _, _ => .error errFieldOutOfBounds

/-- `RootDirectory.Encode` (db.go 123-131). -/
def RootDirectory.Encode (rootDirectory : RootDirectory) : EncodeRun :=
  encodeWithLog "quics: (RootDirectory.Encode) " (.ok rootDirectory.gobFields)

/-- `RootDirectory.Decode` (db.go 133-137). -/
def RootDirectory.Decode (rootDirectory : RootDirectory) (data : GobStream) :
    Except GoError RootDirectory :=
  decoderDecode RootDirectory.setField rootDirectory data

def Client.gobFields (c : Client) : List (Nat × GobValue) :=
  sendString 0 c.UUID ++ sendUint 1 c.Id ++ sendString 2 c.Ip ++
    sendSlice 3 (c.Root.elems.map (fun d => GobValue.struct d.gobFields))

def Client.setField (c : Client) : Nat → GobValue → Except GoError Client
  | 0, v => (recvString v).map (fun x => { c with UUID := x })
  | 1, v => (recvUint 64 v).map (fun x => { c with Id := x })
  | 2, v => (recvString v).map (fun x => { c with Ip := x })
  | 3, v =>
    (recvSlice (recvStruct RootDirectory.setField) RootDirectory.zero c.Root v).map
      (fun x => { c with Root := x })
  | _, _ => .error errFieldOutOfBounds

/-- `Client.Encode` (db.go 107-115). -/
def Client.Encode (client : Client) : EncodeRun :=
  encodeWithLog "quics: (Client.Encode) " (.ok client.gobFields)

/-- `Client.Decode` (db.go 117-121). -/
def Client.Decode (client : Client) (data : GobStream) : Except GoError Client :=
  decoderDecode Client.setField client data

def FileHistory.gobFields (tz : Int → Int) (h : FileHistory) :
    Except GoError (List (Nat × GobValue)) :=
  match h.File.gobFields tz with
  | .error err => .error err
  | .ok file =>
    .ok (sendString 0 h.AfterPath ++ sendString 1 h.BeforePath ++ sendString 2 h.Date ++
      sendString 3 h.UUID ++ sendUint 4 h.Timestamp ++ sendString 5 h.Hash ++ sendStruct 6 file)

def FileHistory.setField (tz : Int → Int) (h : FileHistory) :
    Nat → GobValue → Except GoError FileHistory
  | 0, v => (recvString v).map (fun x => { h with AfterPath := x })
  | 1, v => (recvString v).map (fun x => { h with BeforePath := x })
  | 2, v => (recvString v).map (fun x => { h with Date := x })
  | 3, v => (recvString v).map (fun x => { h with UUID := x })
  | 4, v => (recvUint 64 v).map (fun x => { h with Timestamp := x })
  | 5, v => (recvString v).map (fun x => { h with Hash := x })
  | 6, v => (recvStruct (FileMetadata.setField tz) h.File v).map (fun x => { h with File := x })
  | _, _ => .error errFieldOutOfBounds

/-- `FileHistory.Encode` (db.go 155-163). -/
def FileHistory.Encode (tz : Int → Int) (fileHistory : FileHistory) : EncodeRun :=
  encodeWithLog "quics: (FileHistory.Encode) " (fileHistory.gobFields tz)

/-- `FileHistory.Decode` (db.go 165-169). -/
def FileHistory.Decode (tz : Int → Int) (fileHistory : FileHistory) (data : GobStream) :
    Except GoError FileHistory :=
  decoderDecode (FileHistory.setField tz) fileHistory data

/-- The entries of a map of staged versions as the encoder sends them, or the first error. -/
def encodeEntries (tz : Int → Int) :
    List (String × FileHistory) → Except GoError (List (GobValue × GobValue))
  | [] => .ok []
  | (k, h) :: rest =>
    match h.gobFields tz with
    | .error err => .error err
    | .ok fields =>
      match encodeEntries tz rest with
      | .error err => .error err
      | .ok es => .ok ((.string k, .struct fields) :: es)

def Conflict.gobFields (tz : Int → Int) (c : Conflict) :
    Except GoError (List (Nat × GobValue)) :=
  match c.StagingFiles with
  | none => .ok (sendString 0 c.AfterPath ++ sendMap 1 none)
  | some entries =>
    match encodeEntries tz entries with
    | .error err => .error err
    | .ok es => .ok (sendString 0 c.AfterPath ++ sendMap 1 (some es))

def Conflict.setField (tz : Int → Int) (c : Conflict) :
    Nat → GobValue → Except GoError Conflict
  | 0, v => (recvString v).map (fun x => { c with AfterPath := x })
  | 1, v =>
    (recvMap (recvStruct (FileHistory.setField tz) FileHistory.zero) c.StagingFiles v).map
      (fun x => { c with StagingFiles := x })
  | _, _ => .error errFieldOutOfBounds

/-- `Conflict.Encode` (db.go 270-278); the log line of this method names `Sharing.Encode`. -/
def Conflict.Encode (tz : Int → Int) (c : Conflict) : EncodeRun :=
  encodeWithLog "quics: (Sharing.Encode) " (c.gobFields tz)

/-- `Conflict.Decode` (db.go 280-284). -/
def Conflict.Decode (tz : Int → Int) (c : Conflict) (data : GobStream) :
    Except GoError Conflict :=
  decoderDecode (Conflict.setField tz) c data

def File.gobFields (tz : Int → Int) (f : File) : Except GoError (List (Nat × GobValue)) :=
  match f.Conflict.gobFields tz with
  | .error err => .error err
  | .ok conflict =>
    match f.Metadata.gobFields tz with
    | .error err => .error err
    | .ok metadata =>
      .ok (sendString 0 f.AfterPath ++ sendString 1 f.BeforePath ++ sendString 2 f.RootDirKey ++
        sendString 3 f.LatestHash ++ sendUint 4 f.LatestSyncTimestamp ++
        sendString 5 f.LatestEditClient ++ sendBool 6 f.ContentsExisted ++
        sendBool 7 f.NeedForceSync ++ sendStruct 8 conflict ++ sendStruct 9 metadata)

def File.setField (tz : Int → Int) (f : File) : Nat → GobValue → Except GoError File
  | 0, v => (recvString v).map (fun x => { f with AfterPath := x })
  | 1, v => (recvString v).map (fun x => { f with BeforePath := x })
  | 2, v => (recvString v).map (fun x => { f with RootDirKey := x })
  | 3, v => (recvString v).map (fun x => { f with LatestHash := x })
  | 4, v => (recvUint 64 v).map (fun x => { f with LatestSyncTimestamp := x })
  | 5, v => (recvString v).map (fun x => { f with LatestEditClient := x })
  | 6, v => (recvBool v).map (fun x => { f with ContentsExisted := x })
  | 7, v => (recvBool v).map (fun x => { f with NeedForceSync := x })
  | 8, v =>
    (recvStruct (Conflict.setField tz) f.Conflict v).map (fun x => { f with Conflict := x })
  | 9, v =>
    (recvStruct (FileMetadata.setField tz) f.Metadata v).map (fun x => { f with Metadata := x })
  | _, _ => .error errFieldOutOfBounds

/-- `File.Encode` (db.go 139-147). -/
def File.Encode (tz : Int → Int) (file : File) : EncodeRun :=
  encodeWithLog "quics: (File.Encode) " (file.gobFields tz)

/-- `File.Decode` (db.go 149-153). -/
def File.Decode (tz : Int → Int) (file : File) (data : GobStream) : Except GoError File :=
  decoderDecode (File.setField tz) file data

def Sharing.gobFields (tz : Int → Int) (s : Sharing) : Except GoError (List (Nat × GobValue)) :=
  match s.File.gobFields tz with
  | .error err => .error err
  | .ok file =>
    .ok (sendString 0 s.Link ++ sendUint 1 s.Count ++ sendUint 2 s.MaxCount ++
      sendString 3 s.Owner ++ sendStruct 4 file)

def Sharing.setField (tz : Int → Int) (s : Sharing) : Nat → GobValue → Except GoError Sharing
  | 0, v => (recvString v).map (fun x => { s with Link := x })
  | 1, v => (recvUint 64 v).map (fun x => { s with Count := x })
  | 2, v => (recvUint 64 v).map (fun x => { s with MaxCount := x })
  | 3, v => (recvString v).map (fun x => { s with Owner := x })
  | 4, v => (recvStruct (File.setField tz) s.File v).map (fun x => { s with File := x })
  | _, _ => .error errFieldOutOfBounds

/-- `Sharing.Encode` (db.go 254-262). -/
def Sharing.Encode (tz : Int → Int) (sharing : Sharing) : EncodeRun :=
  encodeWithLog "quics: (Sharing.Encode) " (sharing.gobFields tz)

/-- `Sharing.Decode` (db.go 264-268). -/
def Sharing.Decode (tz : Int → Int) (sharing : Sharing) (data : GobStream) :
    Except GoError Sharing :=
  decoderDecode (Sharing.setField tz) sharing data

/-! ## What a decoded receiver holds

`overlay e r` is what the receiver `r` holds after the encoding of `e` has been decoded into it,
written out field by field: the contents of `e` in every field that is sent, what `r` held in
the others.  `Encodable` says that gob can encode every `time.Time` of the value, `GobExact` that
the value is one gob hands back as it is.  `DeepEqual` is Go `reflect.DeepEqual`, which looks at
the elements of a slice and at whether it is nil, not at its spare capacity. -/

/-- The value `new` unless it is the zero value `z`, in which case `old`. -/
def pick {α : Type} [DecidableEq α] (z new old : α) : α :=
  if new = z then old else new

/-- The zone offset is one `MarshalBinary` accepts: in minutes it fits 16 bits and is not `-1`,
the mark of UTC. -/
def ZoneOffsetEncodable (offset : Int) : Prop :=
  -32768 ≤ offset.tdiv 60 ∧ offset.tdiv 60 ≠ -1 ∧ offset.tdiv 60 ≤ 32767

instance (offset : Int) : Decidable (ZoneOffsetEncodable offset) :=
  inferInstanceAs (Decidable (_ ∧ _))

/-- Gob can encode the time: it is in UTC or its zone offset is one `MarshalBinary` accepts. -/
def Time.Encodable (tz : Int → Int) (t : Time) : Prop :=
  t.loc = .utc ∨ ZoneOffsetEncodable (t.zoneOffset tz)

instance (tz : Int → Int) (t : Time) : Decidable (t.Encodable tz) :=
  inferInstanceAs (Decidable (_ ∨ _))

/-- The time a decoder builds from the encoding of `t`: the same wall clock reading, no
monotonic reading, and as location UTC, `time.Local` when the decoded offset is the one of the
machine at that time, or else an unnamed zone of the decoded offset. -/
def Time.received (tz : Int → Int) (t : Time) : Time :=
  match t.loc with
  | .utc => { sec := t.sec, nsec := t.nsec, mono := none, loc := .utc }
  | _ =>
    let offset := (t.zoneOffset tz).tdiv 60 * 60 + (t.zoneOffset tz).tmod 60 % 256
    { sec := t.sec, nsec := t.nsec, mono := none
      loc := if offset = -60 then .utc
             else if offset = tz t.unixSec then .localZone else .fixed "" offset }

/-- The zone offset is encodable and has no negative part below the minute. -/
def ZoneOffsetExact (offset : Int) : Prop :=
  0 ≤ offset.tmod 60 ∧ ZoneOffsetEncodable offset

instance (offset : Int) : Decidable (ZoneOffsetExact offset) :=
  inferInstanceAs (Decidable (_ ∧ _))

/-- The time is one gob hands back as it is: no monotonic reading and, as location, UTC, or
`time.Local`, or an unnamed zone whose offset is not the one of the machine at that time, the
offset being encodable in the last two cases. -/
def Time.GobExact (tz : Int → Int) (t : Time) : Prop :=
  t.mono = none ∧
    (t.loc = .utc ∨
      (ZoneOffsetExact (t.zoneOffset tz) ∧
        (t.loc = .localZone ∨
          (t.loc = .fixed "" (t.zoneOffset tz) ∧ t.zoneOffset tz ≠ tz t.unixSec))))

instance (tz : Int → Int) (t : Time) : Decidable (t.GobExact tz) :=
  inferInstanceAs (Decidable (_ ∧ _))

def Time.overlay (tz : Int → Int) (e r : Time) : Time :=
  if e = Time.zero then r else e.received tz

def FileMetadata.overlay (tz : Int → Int) (e r : FileMetadata) : FileMetadata :=
  { Name := pick "" e.Name r.Name
    Size := pick 0 e.Size r.Size
    Mode := pick 0 e.Mode r.Mode
    ModTime := e.ModTime.overlay tz r.ModTime
    IsDir := pick false e.IsDir r.IsDir }

/-- The slice `old` of the receiver after the elements `xs` of the encoded slice have been
decoded into it, `ov x o` being the element `o` after `x` has been decoded into it: unchanged
when there is no element to send; with capacity for them, the first elements of the backing
array of `old`, each overlaid; otherwise fresh elements. -/
def sliceOverlay {α : Type} (ov : α → α → α) (zero : α) (xs : List α) (old : GoSlice α) :
    GoSlice α :=
  match xs with
  | [] => old
  | _ :: _ =>
    if old.cap < xs.length then .mk (xs.map (fun x => ov x zero)) []
    else (old.setLen xs.length).setElems (List.zipWith ov xs (old.setLen xs.length).elems)

/-- The map `old` of the receiver after the entries of the encoded map `e` have been stored in
it, `canon v` being the value that comes out of the encoding of `v`. -/
def mapOverlay {V : Type} (canon : V → V) (e old : GoMap V) : GoMap V :=
  match e with
  | none => old
  | some es => some (es.foldl (fun m kv => mapInsert m kv.1 (canon kv.2)) (old.getD []))

def RootDirectory.overlay (e r : RootDirectory) : RootDirectory :=
  { AfterPath := pick "" e.AfterPath r.AfterPath
    BeforePath := pick "" e.BeforePath r.BeforePath
    Owner := pick "" e.Owner r.Owner
    Password := pick "" e.Password r.Password
    UUIDs := sliceOverlay (fun x _ => x) "" e.UUIDs.elems r.UUIDs }

def Client.overlay (e r : Client) : Client :=
  { UUID := pick "" e.UUID r.UUID
    Id := pick 0 e.Id r.Id
    Ip := pick "" e.Ip r.Ip
    Root := sliceOverlay RootDirectory.overlay RootDirectory.zero e.Root.elems r.Root }

def FileHistory.overlay (tz : Int → Int) (e r : FileHistory) : FileHistory :=
  { AfterPath := pick "" e.AfterPath r.AfterPath
    BeforePath := pick "" e.BeforePath r.BeforePath
    Date := pick "" e.Date r.Date
    UUID := pick "" e.UUID r.UUID
    Timestamp := pick 0 e.Timestamp r.Timestamp
    Hash := pick "" e.Hash r.Hash
    File := e.File.overlay tz r.File }

def Conflict.overlay (tz : Int → Int) (e r : Conflict) : Conflict :=
  { AfterPath := pick "" e.AfterPath r.AfterPath
    StagingFiles :=
      mapOverlay (fun h => h.overlay tz FileHistory.zero) e.StagingFiles r.StagingFiles }

def File.overlay (tz : Int → Int) (e r : File) : File :=
  { AfterPath := pick "" e.AfterPath r.AfterPath
    BeforePath := pick "" e.BeforePath r.BeforePath
    RootDirKey := pick "" e.RootDirKey r.RootDirKey
    LatestHash := pick "" e.LatestHash r.LatestHash
    LatestSyncTimestamp := pick 0 e.LatestSyncTimestamp r.LatestSyncTimestamp
    LatestEditClient := pick "" e.LatestEditClient r.LatestEditClient
    ContentsExisted := pick false e.ContentsExisted r.ContentsExisted
    NeedForceSync := pick false e.NeedForceSync r.NeedForceSync
    Conflict := e.Conflict.overlay tz r.Conflict
    Metadata := e.Metadata.overlay tz r.Metadata }

def Sharing.overlay (tz : Int → Int) (e r : Sharing) : Sharing :=
  { Link := pick "" e.Link r.Link
    Count := pick 0 e.Count r.Count
    MaxCount := pick 0 e.MaxCount r.MaxCount
    Owner := pick "" e.Owner r.Owner
    File := e.File.overlay tz r.File }

def FileMetadata.Encodable (tz : Int → Int) (m : FileMetadata) : Prop := m.ModTime.Encodable tz

instance (tz : Int → Int) (m : FileMetadata) : Decidable (m.Encodable tz) :=
  inferInstanceAs (Decidable (m.ModTime.Encodable tz))

def FileHistory.Encodable (tz : Int → Int) (h : FileHistory) : Prop := h.File.Encodable tz

instance (tz : Int → Int) (h : FileHistory) : Decidable (h.Encodable tz) :=
  inferInstanceAs (Decidable (h.File.Encodable tz))

def Conflict.Encodable (tz : Int → Int) (c : Conflict) : Prop :=
  ∀ e ∈ c.StagingFiles.getD [], e.2.Encodable tz

instance (tz : Int → Int) (c : Conflict) : Decidable (c.Encodable tz) :=
  inferInstanceAs (Decidable (∀ e ∈ c.StagingFiles.getD [], e.2.Encodable tz))

def File.Encodable (tz : Int → Int) (f : File) : Prop :=
  f.Conflict.Encodable tz ∧ f.Metadata.Encodable tz

instance (tz : Int → Int) (f : File) : Decidable (f.Encodable tz) :=
  inferInstanceAs (Decidable (_ ∧ _))

def Sharing.Encodable (tz : Int → Int) (s : Sharing) : Prop := s.File.Encodable tz

instance (tz : Int → Int) (s : Sharing) : Decidable (s.Encodable tz) :=
  inferInstanceAs (Decidable (s.File.Encodable tz))

/-- The slice is nil or has an element: it is not an empty slice that is not nil. -/
def GoSlice.NilOrNonEmpty {α : Type} (s : GoSlice α) : Prop :=
  s = .nil ∨ s.elems ≠ []

instance {α : Type} [DecidableEq α] (s : GoSlice α) : Decidable s.NilOrNonEmpty :=
  inferInstanceAs (Decidable (_ ∨ _))

def RootDirectory.GobExact (d : RootDirectory) : Prop := d.UUIDs.NilOrNonEmpty

instance (d : RootDirectory) : Decidable d.GobExact :=
  inferInstanceAs (Decidable d.UUIDs.NilOrNonEmpty)

def Client.GobExact (c : Client) : Prop :=
  c.Root.NilOrNonEmpty ∧ ∀ d ∈ c.Root.elems, d.GobExact

instance (c : Client) : Decidable c.GobExact := inferInstanceAs (Decidable (_ ∧ _))

def FileMetadata.GobExact (tz : Int → Int) (m : FileMetadata) : Prop := m.ModTime.GobExact tz

instance (tz : Int → Int) (m : FileMetadata) : Decidable (m.GobExact tz) :=
  inferInstanceAs (Decidable (m.ModTime.GobExact tz))

def FileHistory.GobExact (tz : Int → Int) (h : FileHistory) : Prop := h.File.GobExact tz

instance (tz : Int → Int) (h : FileHistory) : Decidable (h.GobExact tz) :=
  inferInstanceAs (Decidable (h.File.GobExact tz))

def Conflict.GobExact (tz : Int → Int) (c : Conflict) : Prop :=
  ∀ e ∈ c.StagingFiles.getD [], e.2.GobExact tz

instance (tz : Int → Int) (c : Conflict) : Decidable (c.GobExact tz) :=
  inferInstanceAs (Decidable (∀ e ∈ c.StagingFiles.getD [], e.2.GobExact tz))

def File.GobExact (tz : Int → Int) (f : File) : Prop :=
  f.Conflict.GobExact tz ∧ f.Metadata.GobExact tz

instance (tz : Int → Int) (f : File) : Decidable (f.GobExact tz) :=
  inferInstanceAs (Decidable (_ ∧ _))

def Sharing.GobExact (tz : Int → Int) (s : Sharing) : Prop := s.File.GobExact tz

instance (tz : Int → Int) (s : Sharing) : Decidable (s.GobExact tz) :=
  inferInstanceAs (Decidable (s.File.GobExact tz))

/-- The slice without its spare capacity, each element mapped by `f`. -/
def GoSlice.clip {α : Type} (f : α → α) : GoSlice α → GoSlice α
  | .nil => .nil
  | .mk es _ => .mk (es.map f) []

/-- The value without the spare capacity of its slice. -/
def RootDirectory.clip (d : RootDirectory) : RootDirectory :=
  { d with UUIDs := d.UUIDs.clip id }

/-- The value without the spare capacity of its slices. -/
def Client.clip (c : Client) : Client :=
  { c with Root := c.Root.clip RootDirectory.clip }

/-- Go `reflect.DeepEqual` on two `RootDirectory` values. -/
def RootDirectory.DeepEqual (a b : RootDirectory) : Prop := a.clip = b.clip

instance (a b : RootDirectory) : Decidable (a.DeepEqual b) :=
  inferInstanceAs (Decidable (a.clip = b.clip))

/-- Go `reflect.DeepEqual` on two `Client` values. -/
def Client.DeepEqual (a b : Client) : Prop := a.clip = b.clip

instance (a b : Client) : Decidable (a.DeepEqual b) :=
  inferInstanceAs (Decidable (a.clip = b.clip))

/-! ## What the encoder sends when no field fails -/

/-- The payload of a time gob can encode. -/
def Time.wire (tz : Int → Int) (t : Time) : TimeWire :=
  match t.loc with
  | .utc => { version := 1, sec := t.sec, nsec := t.nsec, offsetMin := -1, offsetSec := 0 }
  | _ => t.wireZoned tz

def sentTime (tz : Int → Int) (i : Nat) (t : Time) : List (Nat × GobValue) :=
  if t = Time.zero then [] else [(i, .gobEncoder (t.wire tz))]

def FileMetadata.sent (tz : Int → Int) (m : FileMetadata) : List (Nat × GobValue) :=
  sendString 0 m.Name ++ sendInt 1 m.Size ++ sendUint 2 m.Mode ++ sentTime tz 3 m.ModTime ++
    sendBool 4 m.IsDir

def FileHistory.sent (tz : Int → Int) (h : FileHistory) : List (Nat × GobValue) :=
  sendString 0 h.AfterPath ++ sendString 1 h.BeforePath ++ sendString 2 h.Date ++
    sendString 3 h.UUID ++ sendUint 4 h.Timestamp ++ sendString 5 h.Hash ++
    sendStruct 6 (h.File.sent tz)

def sentEntries (tz : Int → Int) (m : GoMap FileHistory) : Option (List (GobValue × GobValue)) :=
  m.map (fun es => es.map (fun e => (GobValue.string e.1, GobValue.struct (e.2.sent tz))))

def Conflict.sent (tz : Int → Int) (c : Conflict) : List (Nat × GobValue) :=
  sendString 0 c.AfterPath ++ sendMap 1 (sentEntries tz c.StagingFiles)

def File.sent (tz : Int → Int) (f : File) : List (Nat × GobValue) :=
  sendString 0 f.AfterPath ++ sendString 1 f.BeforePath ++ sendString 2 f.RootDirKey ++
    sendString 3 f.LatestHash ++ sendUint 4 f.LatestSyncTimestamp ++
    sendString 5 f.LatestEditClient ++ sendBool 6 f.ContentsExisted ++
    sendBool 7 f.NeedForceSync ++ sendStruct 8 (f.Conflict.sent tz) ++
    sendStruct 9 (f.Metadata.sent tz)

def Sharing.sent (tz : Int → Int) (s : Sharing) : List (Nat × GobValue) :=
  sendString 0 s.Link ++ sendUint 1 s.Count ++ sendUint 2 s.MaxCount ++ sendString 3 s.Owner ++
    sendStruct 4 (s.File.sent tz)

/-! ## Concrete inputs -/

/-- A machine whose local zone is one hour east of UTC all year. -/
def exampleTZ : Int → Int := fun _ => 3600

/-- The value of `time.Now()` in the example of `WriteToFile`: a reading of the local clock,
with its monotonic reading. -/
def exampleNow : Time := { sec := 63800000100, nsec := 0, mono := some 1, loc := .localZone }

/-- A modification time as `os.Stat` reports it: local zone, no monotonic reading. -/
def exampleModTime : Time := { sec := 63800000000, nsec := 500, mono := none, loc := .localZone }

/-- A file with an open conflict of two staged versions, some fields zero and some not. -/
def exampleFile : File :=
  { AfterPath := "/root/a.txt", BeforePath := "", RootDirKey := "/root", LatestHash := "h1",
    LatestSyncTimestamp := 7, LatestEditClient := "", ContentsExisted := true,
    NeedForceSync := false,
    Conflict :=
      { AfterPath := "/root/a.txt"
        StagingFiles := some
          [("c1", { FileHistory.zero with
                      UUID := "c1", Timestamp := 8, Hash := "h2"
                      File := { FileMetadata.zero with
                                  ModTime := { sec := 63800000060, nsec := 0, mono := none,
                                               loc := .utc } } }),
           ("", { FileHistory.zero with
                    Hash := "h3"
                    File := { FileMetadata.zero with
                                Size := -1
                                ModTime := { sec := 63800000090, nsec := 5, mono := none,
                                             loc := .fixed "" 7200 } } })] }
    Metadata := { Name := "a.txt", Size := 12, Mode := 420, ModTime := exampleModTime,
                  IsDir := false } }

/-- A share link on `exampleFile`, never redeemed. -/
def exampleSharing : Sharing :=
  { Link := "lnk", Count := 0, MaxCount := 3, Owner := "", File := exampleFile }

/-- A receiver that already holds data: scalar fields, a modification time and a staged
version. -/
def populatedSharing : Sharing :=
  { Link := "old", Count := 2, MaxCount := 2, Owner := "c9",
    File :=
      { File.zero with
          BeforePath := "/home/a.txt", NeedForceSync := true
          Conflict :=
            { AfterPath := "/old"
              StagingFiles := some [("c7", { FileHistory.zero with Hash := "h0" })] } } }

/-- A client with one root directory. -/
def exampleClient : Client :=
  { UUID := "", Id := 4, Ip := "10.0.0.1",
    Root := .mk [{ RootDirectory.zero with AfterPath := "/a", UUIDs := .mk ["u1"] [] }] [] }

/-- A receiver whose `Root` slice is empty and has capacity for one element, the backing array
still holding an older root directory. -/
def populatedClient : Client :=
  { UUID := "c9", Id := 3, Ip := "",
    Root := .mk [] [{ RootDirectory.zero with Owner := "c0", UUIDs := .mk ["u0"] [] }] }

/-- A root directory whose `UUIDs` slice is empty but not nil. -/
def emptySliceRootDirectory : RootDirectory :=
  { RootDirectory.zero with AfterPath := "/a", UUIDs := .mk [] [] }

/-- A file metadata whose modification time lies in a zone ninety seconds west of UTC. -/
def oddZoneFileMetadata : FileMetadata :=
  { FileMetadata.zero with
      Name := "a.txt"
      ModTime := { sec := 63800000000, nsec := 0, mono := none, loc := .fixed "LMT" (-90) } }

/-- The collaborators of `RegisterClient` when the stream delivers `data`: requests are decoded
from one-byte messages, the service answers a request `n` with `n + 1` unless `n` is `0`, the
response is encoded as one byte and the send succeeds. -/
def exampleEnv (data : Except GoError Message) : RegisterClientEnv Nat Nat Nat :=
  { RecvBMessage := data
    requestDecode := fun m =>
      match m with
      | [n] => .ok n
      | _ => .error "gob: type mismatch"
    serviceRegisterClient := fun n _ => if n = 0 then .error "empty uuid" else .ok (n + 1)
    responseEncode := fun n => .ok [n]
    SendBMessage := fun _ => none }

/-- The JSON decoding of a request body, for the two bodies used below: an empty body is the
error `io.EOF`, any other body is taken as the decoded request. -/
def exampleJSONDecode (body : String) : Except GoError String :=
  if body = "" then .error "EOF" else .ok body

/-- A registration service that refuses the request "taken" and accepts every other one. -/
def exampleRegisterRootDir (request : String) : Except GoError String :=
  if request = "taken" then .error "root directory exists" else .ok "registered"

/-! ## Lemmas on the struct decoder -/

theorem decodeStruct_skip {T : Type} (setField : T → Nat → GobValue → Except GoError T) (r : T)
    (send rest : List (Nat × GobValue)) (hs : send = []) :
    decodeStruct setField r (send ++ rest) = decodeStruct setField r rest := by
  subst hs
  rfl

theorem decodeStruct_take {T : Type} (setField : T → Nat → GobValue → Except GoError T) (r r1 : T)
    (send rest : List (Nat × GobValue)) (i : Nat) (v : GobValue) (hs : send = [(i, v)])
    (h : setField r i v = .ok r1) :
    decodeStruct setField r (send ++ rest) = decodeStruct setField r1 rest := by
  subst hs
  simp [decodeStruct, h]

theorem step_string {T : Type} (setField : T → Nat → GobValue → Except GoError T) (r : T)
    (upd : String → T) (old : String) (i : Nat) (s : String) (rest : List (Nat × GobValue))
    (h1 : ∀ v, setField r i v = (recvString v).map upd) (h0 : upd old = r) :
    decodeStruct setField r (sendString i s ++ rest) =
      decodeStruct setField (upd (pick "" s old)) rest := by
  by_cases hs : s = ""
  · rw [decodeStruct_skip _ _ _ _ (by simp [sendString, hs])]
    simp [pick, hs, h0]
  · rw [decodeStruct_take _ _ _ _ _ i (.string s) (by simp [sendString, hs])
      (by rw [h1]; rfl)]
    simp [pick, hs]

theorem step_bool {T : Type} (setField : T → Nat → GobValue → Except GoError T) (r : T)
    (upd : Bool → T) (old : Bool) (i : Nat) (b : Bool) (rest : List (Nat × GobValue))
    (h1 : ∀ v, setField r i v = (recvBool v).map upd) (h0 : upd old = r) :
    decodeStruct setField r (sendBool i b ++ rest) =
      decodeStruct setField (upd (pick false b old)) rest := by
  by_cases hs : b = false
  · rw [decodeStruct_skip _ _ _ _ (by simp [sendBool, hs])]
    simp [pick, hs, h0]
  · rw [decodeStruct_take _ _ _ _ _ i (.bool b) (by simp [sendBool, hs])
      (by rw [h1]; rfl)]
    simp [pick, hs]

theorem step_uint {T : Type} (setField : T → Nat → GobValue → Except GoError T) (r : T)
    (upd : Nat → T) (old : Nat) (bits i n : Nat) (rest : List (Nat × GobValue))
    (h1 : ∀ v, setField r i v = (recvUint bits v).map upd) (h0 : upd old = r)
    (hn : n < 2 ^ bits) :
    decodeStruct setField r (sendUint i n ++ rest) =
      decodeStruct setField (upd (pick 0 n old)) rest := by
  by_cases hs : n = 0
  · rw [decodeStruct_skip _ _ _ _ (by simp [sendUint, hs])]
    simp [pick, hs, h0]
  · rw [decodeStruct_take _ _ (upd n) _ _ i (.uint n) (by simp [sendUint, hs])
      (by rw [h1]; simp [recvUint, hn, Except.map])]
    simp [pick, hs]

theorem step_int64 {T : Type} (setField : T → Nat → GobValue → Except GoError T) (r : T)
    (upd : Int → T) (old : Int) (i : Nat) (z : Int) (rest : List (Nat × GobValue))
    (h1 : ∀ v, setField r i v = (recvInt64 v).map upd) (h0 : upd old = r)
    (hz : FitsInt64 z) :
    decodeStruct setField r (sendInt i z ++ rest) =
      decodeStruct setField (upd (pick 0 z old)) rest := by
  by_cases hs : z = 0
  · rw [decodeStruct_skip _ _ _ _ (by simp [sendInt, hs])]
    simp [pick, hs, h0]
  · rw [decodeStruct_take _ _ (upd z) _ _ i (.int z) (by simp [sendInt, hs])
      (by rw [h1]; simp [recvInt64, hz, Except.map])]
    simp [pick, hs]

theorem unmarshal_wire (tz : Int → Int) (t : Time) :
    Time.UnmarshalBinary tz (t.wire tz) = .ok (t.received tz) := by
  have key : ∀ o : Int, (if (if o.tmod 60 ≠ 0 then 2 else 1) = 2
      then (((o.tmod 60 % 256).toNat : Nat) : Int) else 0) = o.tmod 60 % 256 := by
    intro o
    by_cases h : o.tmod 60 = 0
    · simp [h]
    · simp only [ne_eq, h, not_false_eq_true, if_true]
      exact Int.toNat_of_nonneg (Int.emod_nonneg _ (by decide))
  have ver : ∀ o : Int, ¬ ((if o.tmod 60 ≠ 0 then 2 else 1) ≠ 1 ∧
      (if o.tmod 60 ≠ 0 then 2 else 1) ≠ 2) := by
    intro o
    by_cases h : o.tmod 60 = 0 <;> simp [h]
  cases hl : t.loc with
  | utc =>
    simp [Time.wire, Time.received, Time.UnmarshalBinary, hl]
  | localZone =>
    simp only [Time.wire, Time.received, Time.UnmarshalBinary, hl, Time.wireZoned, Time.unixSec]
    rw [if_neg (ver _), key]
    split_ifs <;> simp_all
  | fixed name offset =>
    simp only [Time.wire, Time.received, Time.UnmarshalBinary, hl, Time.wireZoned, Time.unixSec]
    rw [if_neg (ver _), key]
    split_ifs <;> simp_all

theorem marshal_eq_wire (tz : Int → Int) (t : Time) (ht : t.Encodable tz) :
    t.MarshalBinary tz = .ok (t.wire tz) := by
  unfold Time.Encodable ZoneOffsetEncodable at ht
  cases hl : t.loc with
  | utc => simp [Time.MarshalBinary, Time.wire, hl]
  | localZone =>
    rw [hl] at ht
    obtain ⟨h1, h2, h3⟩ := ht.resolve_left (by simp)
    simp only [Time.MarshalBinary, Time.wire, hl]
    rw [if_neg]
    omega
  | fixed name offset =>
    rw [hl] at ht
    obtain ⟨h1, h2, h3⟩ := ht.resolve_left (by simp)
    simp only [Time.MarshalBinary, Time.wire, hl]
    rw [if_neg]
    omega

theorem sendTime_eq_sentTime (tz : Int → Int) (i : Nat) (t : Time) (ht : t.Encodable tz) :
    sendTime tz i t = .ok (sentTime tz i t) := by
  unfold sendTime sentTime
  by_cases h : t = Time.zero
  · simp [h]
  · simp [h, marshal_eq_wire tz t ht]

theorem step_time {T : Type} (setField : T → Nat → GobValue → Except GoError T) (tz : Int → Int)
    (r : T) (upd : Time → T) (old : Time) (i : Nat) (t : Time) (rest : List (Nat × GobValue))
    (h1 : ∀ v, setField r i v = (recvTime tz v).map upd) (h0 : upd old = r) :
    decodeStruct setField r (sentTime tz i t ++ rest) =
      decodeStruct setField (upd (Time.overlay tz t old)) rest := by
  by_cases hs : t = Time.zero
  · rw [decodeStruct_skip _ _ _ _ (by simp [sentTime, hs])]
    simp [Time.overlay, hs, h0]
  · rw [decodeStruct_take _ _ (upd (t.received tz)) _ _ i (.gobEncoder (t.wire tz)) (by simp [sentTime, hs])
      (by rw [h1]; simp [recvTime, unmarshal_wire, Except.map])]
    simp [Time.overlay, hs]

theorem step_struct {T U : Type} (setField : T → Nat → GobValue → Except GoError T)
    (setInner : U → Nat → GobValue → Except GoError U) (r : T) (upd : U → T) (inner inner1 : U)
    (i : Nat) (fields rest : List (Nat × GobValue))
    (h1 : ∀ v, setField r i v = (recvStruct setInner inner v).map upd)
    (hin : decodeStruct setInner inner fields = .ok inner1) :
    decodeStruct setField r (sendStruct i fields ++ rest) =
      decodeStruct setField (upd inner1) rest := by
  refine decodeStruct_take _ _ _ _ _ i (.struct fields) rfl ?_
  rw [h1]
  show Except.map upd (decodeStruct setInner inner fields) = _
  rw [hin]
  rfl

theorem decodeElems_map {α : Type} (dec : α → GobValue → Except GoError α) (enc : α → GobValue)
    (ov : α → α → α) (hdec : ∀ o x, dec o (enc x) = .ok (ov x o)) (xs olds : List α)
    (hlen : xs.length ≤ olds.length) :
    decodeElems dec olds (xs.map enc) = .ok (List.zipWith ov xs olds) := by
  induction xs generalizing olds with
  | nil => cases olds <;> rfl
  | cons x xs ih =>
    cases olds with
    | nil => simp at hlen
    | cons o os =>
      have hl : xs.length ≤ os.length := by simpa using hlen
      simp [decodeElems, hdec, ih os hl]

theorem zipWith_replicate {α : Type} (ov : α → α → α) (zero : α) (xs : List α) :
    List.zipWith ov xs (List.replicate xs.length zero) = xs.map (fun x => ov x zero) := by
  induction xs with
  | nil => rfl
  | cons x xs ih => simp [List.replicate_succ, ih]

theorem decodeSlice_map {α : Type} (dec : α → GobValue → Except GoError α) (enc : α → GobValue)
    (ov : α → α → α) (zero : α) (hdec : ∀ o x, dec o (enc x) = .ok (ov x o))
    (old : GoSlice α) (x : α) (xs : List α) :
    decodeSlice dec zero old ((x :: xs).map enc) = .ok (sliceOverlay ov zero (x :: xs) old) := by
  unfold decodeSlice sliceOverlay
  simp only [List.length_map]
  by_cases hcap : old.cap < (x :: xs).length
  · simp only [hcap, if_true]
    rw [show (GoSlice.mk (List.replicate (x :: xs).length zero) []).elems
      = List.replicate (x :: xs).length zero from rfl]
    rw [decodeElems_map dec enc ov hdec _ _ (by simp), zipWith_replicate]
    rfl
  · simp only [hcap, if_false]
    have hlen : (x :: xs).length ≤ (old.setLen (x :: xs).length).elems.length := by
      cases old with
      | nil => simp [GoSlice.cap, GoSlice.backing] at hcap
      | mk es sp =>
        simp only [GoSlice.cap, GoSlice.backing, not_lt] at hcap
        simp only [GoSlice.setLen, GoSlice.elems, List.length_take]
        omega
    rw [decodeElems_map dec enc ov hdec _ _ hlen]
    rfl

theorem step_slice {T α : Type} (setField : T → Nat → GobValue → Except GoError T)
    (dec : α → GobValue → Except GoError α) (enc : α → GobValue) (ov : α → α → α) (zero : α)
    (r : T) (upd : GoSlice α → T) (old : GoSlice α) (i : Nat) (xs : List α)
    (rest : List (Nat × GobValue))
    (h1 : ∀ v, setField r i v = (recvSlice dec zero old v).map upd)
    (hdec : ∀ o x, dec o (enc x) = .ok (ov x o)) (h0 : upd old = r) :
    decodeStruct setField r (sendSlice i (xs.map enc) ++ rest) =
      decodeStruct setField (upd (sliceOverlay ov zero xs old)) rest := by
  cases xs with
  | nil =>
    rw [show sliceOverlay ov zero [] old = old from rfl, h0]
    exact decodeStruct_skip _ _ _ _ rfl
  | cons x xs =>
    refine decodeStruct_take _ _ _ _ _ i (.slice ((x :: xs).map enc)) rfl ?_
    rw [h1]
    show Except.map upd (decodeSlice dec zero old ((x :: xs).map enc)) = _
    rw [decodeSlice_map dec enc ov zero hdec]
    rfl

theorem decodeMap_map {V : Type} (decV : GobValue → Except GoError V) (encV : V → GobValue)
    (canon : V → V) (es : List (String × V)) (acc : List (String × V))
    (hdec : ∀ e ∈ es, decV (encV e.2) = .ok (canon e.2)) :
    decodeMap decV acc (es.map (fun (e : String × V) => (GobValue.string e.1, encV e.2))) =
      .ok (es.foldl (fun m kv => mapInsert m kv.1 (canon kv.2)) acc) := by
  induction es generalizing acc with
  | nil => rfl
  | cons x xs ih =>
    have hx := hdec x (by simp)
    have hxs : ∀ e ∈ xs, decV (encV e.2) = .ok (canon e.2) :=
      fun e he => hdec e (by simp [he])
    simp only [List.map_cons, decodeMap, recvString, hx, List.foldl_cons]
    exact ih _ hxs

theorem step_map {T V : Type} (setField : T → Nat → GobValue → Except GoError T)
    (decV : GobValue → Except GoError V) (encV : V → GobValue) (canon : V → V) (r : T)
    (upd : GoMap V → T) (old : GoMap V) (i : Nat) (m : GoMap V) (rest : List (Nat × GobValue))
    (h1 : ∀ v, setField r i v = (recvMap decV old v).map upd)
    (hdec : ∀ es, m = some es → ∀ e ∈ es, decV (encV e.2) = .ok (canon e.2))
    (h0 : upd old = r) :
    decodeStruct setField r
        (sendMap i (m.map (fun es =>
          es.map (fun (e : String × V) => (GobValue.string e.1, encV e.2)))) ++ rest) =
      decodeStruct setField (upd (mapOverlay canon m old)) rest := by
  cases m with
  | none =>
    rw [show mapOverlay canon none old = old from rfl, h0]
    exact decodeStruct_skip _ _ _ _ rfl
  | some es =>
    refine decodeStruct_take _ _ _ _ _ i
      (.map (es.map (fun (e : String × V) => (GobValue.string e.1, encV e.2)))) rfl ?_
    rw [h1]
    show Except.map upd (Except.map some (decodeMap decV (old.getD []) _)) = _
    rw [decodeMap_map decV encV canon es _ (hdec es rfl)]
    rfl

theorem decodeStruct_sent_FileMetadata (tz : Int → Int) (e r : FileMetadata)
    (hw : e.WellTyped) :
    decodeStruct (FileMetadata.setField tz) r (e.sent tz) = .ok (e.overlay tz r) := by
  rw [← List.append_nil (e.sent tz)]
  simp only [FileMetadata.sent, List.append_assoc]
  rw [step_string (FileMetadata.setField tz)]
  case h1 => exact fun _ => rfl
  case h0 => rfl
  rw [step_int64 (FileMetadata.setField tz)]
  case h1 => exact fun _ => rfl
  case h0 => rfl
  case hz => exact hw.1
  rw [step_uint (FileMetadata.setField tz)]
  case h1 => exact fun _ => rfl
  case h0 => rfl
  case hn => exact hw.2
  rw [step_time (FileMetadata.setField tz) tz]
  case h1 => exact fun _ => rfl
  case h0 => rfl
  rw [step_bool (FileMetadata.setField tz)]
  case h1 => exact fun _ => rfl
  case h0 => rfl
  rfl

theorem gobFields_eq_sent_FileMetadata (tz : Int → Int) (e : FileMetadata)
    (he : e.Encodable tz) : e.gobFields tz = .ok (e.sent tz) := by
  unfold FileMetadata.gobFields
  rw [sendTime_eq_sentTime tz 3 e.ModTime he]
  rfl

theorem decodeStruct_gobFields_RootDirectory (e r : RootDirectory) :
    decodeStruct RootDirectory.setField r e.gobFields = .ok (e.overlay r) := by
  rw [← List.append_nil e.gobFields]
  simp only [RootDirectory.gobFields, List.append_assoc]
  rw [step_string RootDirectory.setField]
  case h1 => exact fun _ => rfl
  case h0 => rfl
  rw [step_string RootDirectory.setField]
  case h1 => exact fun _ => rfl
  case h0 => rfl
  rw [step_string RootDirectory.setField]
  case h1 => exact fun _ => rfl
  case h0 => rfl
  rw [step_string RootDirectory.setField]
  case h1 => exact fun _ => rfl
  case h0 => rfl
  rw [step_slice RootDirectory.setField (fun _ w => recvString w) GobValue.string
    (fun x _ => x) ""]
  case h1 => exact fun _ => rfl
  case hdec => exact fun _ _ => rfl
  case h0 => rfl
  rfl

theorem decodeStruct_gobFields_Client (e r : Client) (hw : e.WellTyped) :
    decodeStruct Client.setField r e.gobFields = .ok (e.overlay r) := by
  rw [← List.append_nil e.gobFields]
  simp only [Client.gobFields, List.append_assoc]
  rw [step_string Client.setField]
  case h1 => exact fun _ => rfl
  case h0 => rfl
  rw [step_uint Client.setField]
  case h1 => exact fun _ => rfl
  case h0 => rfl
  case hn => exact hw
  rw [step_string Client.setField]
  case h1 => exact fun _ => rfl
  case h0 => rfl
  rw [step_slice Client.setField (recvStruct RootDirectory.setField)
    (fun d => GobValue.struct d.gobFields) RootDirectory.overlay RootDirectory.zero]
  case h1 => exact fun _ => rfl
  case hdec => exact fun o x => decodeStruct_gobFields_RootDirectory x o
  case h0 => rfl
  rfl

theorem decodeStruct_sent_FileHistory (tz : Int → Int) (e r : FileHistory) (hw : e.WellTyped) :
    decodeStruct (FileHistory.setField tz) r (e.sent tz) = .ok (e.overlay tz r) := by
  rw [← List.append_nil (e.sent tz)]
  simp only [FileHistory.sent, List.append_assoc]
  rw [step_string (FileHistory.setField tz)]
  case h1 => exact fun _ => rfl
  case h0 => rfl
  rw [step_string (FileHistory.setField tz)]
  case h1 => exact fun _ => rfl
  case h0 => rfl
  rw [step_string (FileHistory.setField tz)]
  case h1 => exact fun _ => rfl
  case h0 => rfl
  rw [step_string (FileHistory.setField tz)]
  case h1 => exact fun _ => rfl
  case h0 => rfl
  rw [step_uint (FileHistory.setField tz)]
  case h1 => exact fun _ => rfl
  case h0 => rfl
  case hn => exact hw.1
  rw [step_string (FileHistory.setField tz)]
  case h1 => exact fun _ => rfl
  case h0 => rfl
  rw [step_struct (FileHistory.setField tz) (FileMetadata.setField tz)]
  case h1 => exact fun _ => rfl
  case hin => exact decodeStruct_sent_FileMetadata tz _ _ hw.2
  rfl

theorem gobFields_eq_sent_FileHistory (tz : Int → Int) (e : FileHistory)
    (he : e.Encodable tz) : e.gobFields tz = .ok (e.sent tz) := by
  unfold FileHistory.gobFields
  rw [gobFields_eq_sent_FileMetadata tz e.File he]
  rfl

theorem encodeEntries_eq (tz : Int → Int) (es : List (String × FileHistory))
    (he : ∀ e ∈ es, e.2.Encodable tz) :
    encodeEntries tz es =
      .ok (es.map (fun e => (GobValue.string e.1, GobValue.struct (e.2.sent tz)))) := by
  induction es with
  | nil => rfl
  | cons x xs ih =>
    obtain ⟨k, h⟩ := x
    have hx : h.Encodable tz := he (k, h) (by simp)
    have hxs : ∀ e ∈ xs, e.2.Encodable tz := fun e hmem => he e (by simp [hmem])
    simp only [encodeEntries, gobFields_eq_sent_FileHistory tz h hx, ih hxs, List.map_cons]

theorem decodeStruct_sent_Conflict (tz : Int → Int) (e r : Conflict) (hw : e.WellTyped) :
    decodeStruct (Conflict.setField tz) r (e.sent tz) = .ok (e.overlay tz r) := by
  rw [← List.append_nil (e.sent tz)]
  simp only [Conflict.sent, sentEntries, List.append_assoc]
  rw [step_string (Conflict.setField tz)]
  case h1 => exact fun _ => rfl
  case h0 => rfl
  rw [step_map (Conflict.setField tz) (recvStruct (FileHistory.setField tz) FileHistory.zero)
    (fun h => GobValue.struct (h.sent tz)) (fun h => h.overlay tz FileHistory.zero)]
  case h1 => exact fun _ => rfl
  case hdec =>
    intro es hes x hx
    exact decodeStruct_sent_FileHistory tz x.2 FileHistory.zero
      (hw.2 x (by rw [hes]; exact hx))
  case h0 => rfl
  rfl

theorem gobFields_eq_sent_Conflict (tz : Int → Int) (e : Conflict) (he : e.Encodable tz) :
    e.gobFields tz = .ok (e.sent tz) := by
  unfold Conflict.gobFields Conflict.sent sentEntries
  unfold Conflict.Encodable at he
  cases hs : e.StagingFiles with
  | none => rfl
  | some es =>
    rw [hs] at he
    simp only [encodeEntries_eq tz es he]
    rfl

theorem decodeStruct_sent_File (tz : Int → Int) (e r : File) (hw : e.WellTyped) :
    decodeStruct (File.setField tz) r (e.sent tz) = .ok (e.overlay tz r) := by
  rw [← List.append_nil (e.sent tz)]
  simp only [File.sent, List.append_assoc]
  rw [step_string (File.setField tz)]
  case h1 => exact fun _ => rfl
  case h0 => rfl
  rw [step_string (File.setField tz)]
  case h1 => exact fun _ => rfl
  case h0 => rfl
  rw [step_string (File.setField tz)]
  case h1 => exact fun _ => rfl
  case h0 => rfl
  rw [step_string (File.setField tz)]
  case h1 => exact fun _ => rfl
  case h0 => rfl
  rw [step_uint (File.setField tz)]
  case h1 => exact fun _ => rfl
  case h0 => rfl
  case hn => exact hw.1
  rw [step_string (File.setField tz)]
  case h1 => exact fun _ => rfl
  case h0 => rfl
  rw [step_bool (File.setField tz)]
  case h1 => exact fun _ => rfl
  case h0 => rfl
  rw [step_bool (File.setField tz)]
  case h1 => exact fun _ => rfl
  case h0 => rfl
  rw [step_struct (File.setField tz) (Conflict.setField tz)]
  case h1 => exact fun _ => rfl
  case hin => exact decodeStruct_sent_Conflict tz _ _ hw.2.1
  rw [step_struct (File.setField tz) (FileMetadata.setField tz)]
  case h1 => exact fun _ => rfl
  case hin => exact decodeStruct_sent_FileMetadata tz _ _ hw.2.2
  rfl

theorem gobFields_eq_sent_File (tz : Int → Int) (e : File) (he : e.Encodable tz) :
    e.gobFields tz = .ok (e.sent tz) := by
  unfold File.gobFields
  rw [gobFields_eq_sent_Conflict tz e.Conflict he.1,
    gobFields_eq_sent_FileMetadata tz e.Metadata he.2]
  rfl

theorem decodeStruct_sent_Sharing (tz : Int → Int) (e r : Sharing) (hw : e.WellTyped) :
    decodeStruct (Sharing.setField tz) r (e.sent tz) = .ok (e.overlay tz r) := by
  rw [← List.append_nil (e.sent tz)]
  simp only [Sharing.sent, List.append_assoc]
  rw [step_string (Sharing.setField tz)]
  case h1 => exact fun _ => rfl
  case h0 => rfl
  rw [step_uint (Sharing.setField tz)]
  case h1 => exact fun _ => rfl
  case h0 => rfl
  case hn => exact hw.1
  rw [step_uint (Sharing.setField tz)]
  case h1 => exact fun _ => rfl
  case h0 => rfl
  case hn => exact hw.2.1
  rw [step_string (Sharing.setField tz)]
  case h1 => exact fun _ => rfl
  case h0 => rfl
  rw [step_struct (Sharing.setField tz) (File.setField tz)]
  case h1 => exact fun _ => rfl
  case hin => exact decodeStruct_sent_File tz _ _ hw.2.2
  rfl

theorem gobFields_eq_sent_Sharing (tz : Int → Int) (e : Sharing) (he : e.Encodable tz) :
    e.gobFields tz = .ok (e.sent tz) := by
  unfold Sharing.gobFields
  rw [gobFields_eq_sent_File tz e.File he]
  rfl

theorem pick_zero {α : Type} [DecidableEq α] (z x : α) : pick z x z = x := by
  unfold pick
  split_ifs with h
  · exact h.symm
  · rfl

theorem offset_exact (o : Int) (h : ZoneOffsetExact o) :
    o.tdiv 60 * 60 + o.tmod 60 % 256 = o ∧ o ≠ -60 := by
  obtain ⟨h0, _, h2, _⟩ := h
  have h1 : o.tmod 60 < 60 := Int.tmod_lt_of_pos o (by decide)
  have h3 : 60 * o.tdiv 60 + o.tmod 60 = o := Int.tdiv_add_tmod o 60
  generalize o.tdiv 60 = a at *
  generalize o.tmod 60 = b at *
  omega

theorem received_of_exact (tz : Int → Int) (t : Time) (h : t.GobExact tz) :
    t.received tz = t := by
  obtain ⟨sec, nsec, mono, loc⟩ := t
  obtain ⟨hm, hl⟩ := h
  simp only at hm
  subst hm
  cases loc with
  | utc => rfl
  | localZone =>
    have hx : ZoneOffsetExact (tz (sec - unixToInternal)) := by
      rcases hl with hl | ⟨hx, _⟩
      · cases hl
      · exact hx
    obtain ⟨e1, e2⟩ := offset_exact _ hx
    simp only [Time.received, Time.zoneOffset, Time.unixSec, e1, e2, if_false, if_true]
  | fixed name offset =>
    have hx : ZoneOffsetExact offset ∧ name = "" ∧ offset ≠ tz (sec - unixToInternal) := by
      rcases hl with hl | ⟨hx, hl | ⟨hl, hne⟩⟩
      · cases hl
      · cases hl
      · simp only [Time.zoneOffset, Location.fixed.injEq] at hl
        exact ⟨hx, hl.1, hne⟩
    obtain ⟨e1, e2⟩ := offset_exact _ hx.1
    simp only [Time.received, Time.zoneOffset, Time.unixSec, e1, e2, hx.2.1, hx.2.2, if_false]

theorem encodable_of_exact (tz : Int → Int) (t : Time) (h : t.GobExact tz) :
    t.Encodable tz := by
  rcases h.2 with hl | ⟨hx, _⟩
  · exact Or.inl hl
  · exact Or.inr hx.2

theorem overlay_zero_Time (tz : Int → Int) (t : Time) (h : t.GobExact tz) :
    t.overlay tz Time.zero = t := by
  unfold Time.overlay
  split_ifs with hz
  · exact hz.symm
  · exact received_of_exact tz t h

theorem overlay_zero_FileMetadata (tz : Int → Int) (e : FileMetadata) (h : e.GobExact tz) :
    e.overlay tz FileMetadata.zero = e := by
  have ht := overlay_zero_Time tz e.ModTime h
  cases e
  simp only at ht
  simp [FileMetadata.overlay, FileMetadata.zero, pick_zero, ht]

theorem overlay_zero_FileHistory (tz : Int → Int) (e : FileHistory) (h : e.GobExact tz) :
    e.overlay tz FileHistory.zero = e := by
  have hf := overlay_zero_FileMetadata tz e.File h
  cases e
  simp only at hf
  simp [FileHistory.overlay, FileHistory.zero, pick_zero, hf]

theorem mapInsert_fresh {V : Type} (m : List (String × V)) (k : String) (v : V)
    (hk : k ∉ m.map (fun e => e.1)) : mapInsert m k v = m ++ [(k, v)] := by
  unfold mapInsert
  rw [if_neg]
  simp only [List.any_eq_true, decide_eq_true_eq, not_exists, not_and]
  intro e he hek
  exact hk (List.mem_map.mpr ⟨e, he, hek⟩)

theorem foldl_mapInsert {V : Type} (canon : V → V) (es acc : List (String × V))
    (hk : KeysDistinct (acc ++ es)) (hc : ∀ e ∈ es, canon e.2 = e.2) :
    es.foldl (fun m kv => mapInsert m kv.1 (canon kv.2)) acc = acc ++ es := by
  induction es generalizing acc with
  | nil => simp
  | cons x xs ih =>
    have hx : x.1 ∉ acc.map (fun e => e.1) := by
      unfold KeysDistinct at hk
      rw [List.map_append, List.nodup_append] at hk
      intro hmem
      exact hk.2.2 hmem (by simp)
    have hk2 : KeysDistinct ((acc ++ [x]) ++ xs) := by simpa using hk
    have hcx : canon x.2 = x.2 := hc x (by simp)
    have hcs : ∀ e ∈ xs, canon e.2 = e.2 := fun e he => hc e (by simp [he])
    rw [List.foldl_cons, hcx, mapInsert_fresh acc x.1 x.2 hx, ih (acc ++ [x]) hk2 hcs]
    simp

theorem mapOverlay_none {V : Type} (canon : V → V) (m : GoMap V)
    (hk : KeysDistinct (m.getD [])) (hc : ∀ e ∈ m.getD [], canon e.2 = e.2) :
    mapOverlay canon m none = m := by
  cases m with
  | none => rfl
  | some es =>
    simp only [mapOverlay, Option.getD_none]
    rw [foldl_mapInsert canon es [] (by simpa using hk) hc]
    simp

theorem overlay_zero_Conflict (tz : Int → Int) (e : Conflict) (hw : e.WellTyped)
    (h : e.GobExact tz) : e.overlay tz Conflict.zero = e := by
  have hm := mapOverlay_none (fun x => FileHistory.overlay tz x FileHistory.zero)
    e.StagingFiles hw.1 (fun x hx => overlay_zero_FileHistory tz x.2 (h x hx))
  cases e
  simp only at hm
  simp [Conflict.overlay, Conflict.zero, pick_zero, hm]

theorem overlay_zero_File (tz : Int → Int) (e : File) (hw : e.WellTyped) (h : e.GobExact tz) :
    e.overlay tz File.zero = e := by
  have hc := overlay_zero_Conflict tz e.Conflict hw.2.1 h.1
  have hm := overlay_zero_FileMetadata tz e.Metadata h.2
  cases e
  simp only at hc hm
  simp [File.overlay, File.zero, pick_zero, hc, hm]

theorem overlay_zero_Sharing (tz : Int → Int) (e : Sharing) (hw : e.WellTyped)
    (h : e.GobExact tz) : e.overlay tz Sharing.zero = e := by
  have hf := overlay_zero_File tz e.File hw.2.2 h
  cases e
  simp only at hf
  simp [Sharing.overlay, Sharing.zero, pick_zero, hf]

theorem sliceOverlay_nil {α : Type} (ov : α → α → α) (zero : α) (s : GoSlice α)
    (h : s.NilOrNonEmpty) :
    sliceOverlay ov zero s.elems .nil = s.clip (fun x => ov x zero) := by
  cases s with
  | nil => rfl
  | mk es sp =>
    cases es with
    | nil =>
      rcases h with h | h
      · cases h
      · exact absurd rfl h
    | cons x xs =>
      simp [sliceOverlay, GoSlice.elems, GoSlice.cap, GoSlice.backing, GoSlice.clip]

theorem clip_congr {α : Type} (f g : α → α) (s : GoSlice α) (h : ∀ x ∈ s.elems, f x = g x) :
    s.clip f = s.clip g := by
  cases s with
  | nil => rfl
  | mk es sp =>
    simp only [GoSlice.clip, GoSlice.mk.injEq, and_true]
    exact List.map_congr_left h

theorem overlay_zero_RootDirectory (e : RootDirectory) (h : e.GobExact) :
    e.overlay RootDirectory.zero = e.clip := by
  have hs := sliceOverlay_nil (fun (x : String) _ => x) "" e.UUIDs h
  cases e
  simp only at hs
  simp only [RootDirectory.overlay, RootDirectory.zero, RootDirectory.clip, pick_zero, hs]
  rfl

theorem overlay_zero_Client (e : Client) (h : e.GobExact) :
    e.overlay Client.zero = e.clip := by
  have hs := sliceOverlay_nil RootDirectory.overlay RootDirectory.zero e.Root h.1
  rw [clip_congr _ RootDirectory.clip e.Root
    (fun x hx => overlay_zero_RootDirectory x (h.2 x hx))] at hs
  cases e
  simp only at hs
  simp only [Client.overlay, Client.zero, Client.clip, pick_zero, hs]

theorem clip_clip_RootDirectory (d : RootDirectory) : d.clip.clip = d.clip := by
  obtain ⟨a, b, c, p, u⟩ := d
  cases u <;> simp [RootDirectory.clip, GoSlice.clip]

theorem clip_clip_Client (c : Client) : c.clip.clip = c.clip := by
  obtain ⟨a, b, i, r⟩ := c
  cases r with
  | nil => rfl
  | mk es sp =>
    simp only [Client.clip, GoSlice.clip, List.map_map, List.map_nil, Client.mk.injEq,
      GoSlice.mk.injEq, and_true, true_and]
    exact List.map_congr_left (fun d _ => clip_clip_RootDirectory d)

theorem Decode_Encode_FileMetadata (tz : Int → Int) (e r : FileMetadata) (hw : e.WellTyped)
    (he : e.Encodable tz) :
    FileMetadata.Decode tz r (e.Encode tz).bytes = .ok (e.overlay tz r) := by
  simp only [FileMetadata.Encode, encodeWithLog, encoderEncode,
    gobFields_eq_sent_FileMetadata tz e he]
  exact decodeStruct_sent_FileMetadata tz e r hw

theorem Decode_Encode_FileHistory (tz : Int → Int) (e r : FileHistory) (hw : e.WellTyped)
    (he : e.Encodable tz) :
    FileHistory.Decode tz r (e.Encode tz).bytes = .ok (e.overlay tz r) := by
  simp only [FileHistory.Encode, encodeWithLog, encoderEncode,
    gobFields_eq_sent_FileHistory tz e he]
  exact decodeStruct_sent_FileHistory tz e r hw

theorem Decode_Encode_Conflict (tz : Int → Int) (e r : Conflict) (hw : e.WellTyped)
    (he : e.Encodable tz) :
    Conflict.Decode tz r (e.Encode tz).bytes = .ok (e.overlay tz r) := by
  simp only [Conflict.Encode, encodeWithLog, encoderEncode,
    gobFields_eq_sent_Conflict tz e he]
  exact decodeStruct_sent_Conflict tz e r hw

theorem Decode_Encode_File (tz : Int → Int) (e r : File) (hw : e.WellTyped)
    (he : e.Encodable tz) :
    File.Decode tz r (e.Encode tz).bytes = .ok (e.overlay tz r) := by
  simp only [File.Encode, encodeWithLog, encoderEncode, gobFields_eq_sent_File tz e he]
  exact decodeStruct_sent_File tz e r hw

theorem Decode_Encode_Sharing (tz : Int → Int) (e r : Sharing) (hw : e.WellTyped)
    (he : e.Encodable tz) :
    Sharing.Decode tz r (e.Encode tz).bytes = .ok (e.overlay tz r) := by
  simp only [Sharing.Encode, encodeWithLog, encoderEncode, gobFields_eq_sent_Sharing tz e he]
  exact decodeStruct_sent_Sharing tz e r hw

theorem encodable_of_exact_Conflict (tz : Int → Int) (e : Conflict) (h : e.GobExact tz) :
    e.Encodable tz :=
  fun x hx => encodable_of_exact tz x.2.File.ModTime (h x hx)

theorem encodable_of_exact_File (tz : Int → Int) (e : File) (h : e.GobExact tz) :
    e.Encodable tz :=
  ⟨encodable_of_exact_Conflict tz e.Conflict h.1, encodable_of_exact tz e.Metadata.ModTime h.2⟩

/-! ## The claims -/

/-- C1 as stated fails, at two inputs.  A `RootDirectory` whose `UUIDs` is an empty slice that
is not nil comes back with a nil slice, which `reflect.DeepEqual` tells apart.  A `FileMetadata`
whose `ModTime` lies in a zone ninety seconds west of UTC cannot be encoded: `Encode` logs the
error and returns a buffer without the value, on which `Decode` returns an error. -/
theorem round_trip_fails_on_empty_slice_and_odd_zone :
    (∃ s, RootDirectory.Decode RootDirectory.zero emptySliceRootDirectory.Encode.bytes = .ok s ∧
      s.UUIDs = .nil ∧ ¬ s.DeepEqual emptySliceRootDirectory) ∧
    (oddZoneFileMetadata.Encode exampleTZ).logged =
      ["quics: (FileMetadata.Encode) Time.MarshalBinary: unexpected zone offset"] ∧
    FileMetadata.Decode exampleTZ FileMetadata.zero (oddZoneFileMetadata.Encode exampleTZ).bytes =
      .error "EOF" :=
  ⟨⟨{ RootDirectory.zero with AfterPath := "/a" }, rfl, rfl, by decide⟩, rfl, rfl⟩

/-- C1, amended.  For each of the seven entity types and every value `e` of the type that gob
hands back as it is (`GobExact`: no slice that is empty without being nil, and every `ModTime`
without monotonic reading and in UTC, in the local zone, or in an unnamed zone of another
offset, the offset being one the time encoding accepts), whatever the zone `tz` of the machine:
`Decode` on a fresh zero-valued receiver with the bytes returned by `e.Encode()` returns no error
and leaves the receiver equal to `e` (for `Client` and `RootDirectory`, which hold slices, equal
in the sense of `reflect.DeepEqual`).  Nil slices, nil and empty maps and zero-valued fields are
included.  `WellTyped` only says that the numbers fit their Go types and that a map holds each
key once. -/
theorem encode_decode_round_trip_exact (tz : Int → Int) :
    (∀ e : Client, e.WellTyped → e.GobExact →
      ∃ s, Client.Decode Client.zero e.Encode.bytes = .ok s ∧ s.DeepEqual e) ∧
    (∀ e : RootDirectory, e.GobExact →
      ∃ s, RootDirectory.Decode RootDirectory.zero e.Encode.bytes = .ok s ∧ s.DeepEqual e) ∧
    (∀ e : File, e.WellTyped → e.GobExact tz →
      File.Decode tz File.zero (e.Encode tz).bytes = .ok e) ∧
    (∀ e : FileHistory, e.WellTyped → e.GobExact tz →
      FileHistory.Decode tz FileHistory.zero (e.Encode tz).bytes = .ok e) ∧
    (∀ e : FileMetadata, e.WellTyped → e.GobExact tz →
      FileMetadata.Decode tz FileMetadata.zero (e.Encode tz).bytes = .ok e) ∧
    (∀ e : Conflict, e.WellTyped → e.GobExact tz →
      Conflict.Decode tz Conflict.zero (e.Encode tz).bytes = .ok e) ∧
    (∀ e : Sharing, e.WellTyped → e.GobExact tz →
      Sharing.Decode tz Sharing.zero (e.Encode tz).bytes = .ok e) := by
  refine ⟨?_, ?_, ?_, ?_, ?_, ?_, ?_⟩
  · intro e hw hx
    refine ⟨e.clip, ?_, clip_clip_Client e⟩
    rw [← overlay_zero_Client e hx]
    exact decodeStruct_gobFields_Client e Client.zero hw
  · intro e hx
    refine ⟨e.clip, ?_, clip_clip_RootDirectory e⟩
    rw [← overlay_zero_RootDirectory e hx]
    exact decodeStruct_gobFields_RootDirectory e RootDirectory.zero
  · intro e hw hx
    rw [Decode_Encode_File tz e File.zero hw (encodable_of_exact_File tz e hx),
      overlay_zero_File tz e hw hx]
  · intro e hw hx
    rw [Decode_Encode_FileHistory tz e FileHistory.zero hw
      (encodable_of_exact tz e.File.ModTime hx), overlay_zero_FileHistory tz e hx]
  · intro e hw hx
    rw [Decode_Encode_FileMetadata tz e FileMetadata.zero hw
      (encodable_of_exact tz e.ModTime hx), overlay_zero_FileMetadata tz e hx]
  · intro e hw hx
    rw [Decode_Encode_Conflict tz e Conflict.zero hw (encodable_of_exact_Conflict tz e hx),
      overlay_zero_Conflict tz e hw hx]
  · intro e hw hx
    rw [Decode_Encode_Sharing tz e Sharing.zero hw (encodable_of_exact_File tz e.File hx),
      overlay_zero_Sharing tz e hw hx]

/-- C1 amended, at `exampleSharing`, which nests a `File`, a `Conflict` with two staged versions,
times in UTC, in the local zone and in another zone, and several zero-valued fields. -/
theorem encode_decode_round_trip_exact_witness :
    exampleSharing.WellTyped ∧ exampleSharing.GobExact exampleTZ ∧
      Sharing.Decode exampleTZ Sharing.zero (exampleSharing.Encode exampleTZ).bytes
        = .ok exampleSharing :=
  ⟨by decide, by decide,
    (encode_decode_round_trip_exact exampleTZ).2.2.2.2.2.2 exampleSharing (by decide)
      (by decide)⟩

/-- C2. Registering a handler `h` under the name `types.REGISTERCLIENT` stores `h` as
`p.initialTransaction`, makes no call on `p.Proto` (the general registry is left as it was) and
returns nil; a later `Start` hands exactly `h` to `ListenWithTransaction`. -/
theorem RecvTransactionHandleFunc_initial {H QP : Type} (REGISTERCLIENT : String)
    (protoRecv : QP → String → H → QP × Option GoError)
    (listen : Nat → Nat → Option H → ListenOutcome) (p : Protocol H QP) (h : H) :
    (Protocol.RecvTransactionHandleFunc REGISTERCLIENT protoRecv p REGISTERCLIENT h).1
        = { p with initialTransaction := some h } ∧
      (Protocol.RecvTransactionHandleFunc REGISTERCLIENT protoRecv p REGISTERCLIENT h).2.1 = [] ∧
      (Protocol.RecvTransactionHandleFunc REGISTERCLIENT protoRecv p REGISTERCLIENT h).2.2
        = none ∧
      (Protocol.Start listen
          (Protocol.RecvTransactionHandleFunc REGISTERCLIENT protoRecv p REGISTERCLIENT h).1).calls
        = [ProtoCall.ListenWithTransaction p.udpaddr p.tlsConf (some h)] := by
  simp only [Protocol.RecvTransactionHandleFunc, if_true, true_and]
  unfold Protocol.Start
  simp only []
  split
  · rfl
  · split <;> rfl

/-- C3, on the code: a request to `registerRootDir` whose body fails to decode (here the empty
body) is answered with status 400 and then ends the process with exit status 1, through
`log.Fatalf`; a request the service refuses is answered with status 500 and ends the process in
the same way.  In neither case does the handler return to the server. -/
theorem registerRootDir_error_exits_process :
    Handler.registerRootDir exampleJSONDecode exampleRegisterRootDir ""
        = ([.httpError "Faield to create client because of wrong request data" 400,
            .logFatalf "Error while decoding request data: EOF"], .processExit 1) ∧
      Handler.registerRootDir exampleJSONDecode exampleRegisterRootDir "taken"
        = ([.httpError "Faield to register root directory" 500,
            .logFatalf "Error while returning response data: root directory exists"],
           .processExit 1) := by
  constructor <;> rfl

/-- C4. When receiving the request fails, or the received bytes fail to decode as a request,
`RegisterClient` returns that error, never calls the registration service and sends nothing on
the stream. -/
theorem RegisterClient_fails_before_service {Conn Req Resp : Type}
    (env : RegisterClientEnv Conn Req Resp) (conn : Conn) (err : GoError)
    (h : env.RecvBMessage = .error err ∨
      ∃ data, env.RecvBMessage = .ok data ∧ env.requestDecode data = .error err) :
    (RegistrationHandler.RegisterClient env conn).2 = some err ∧
      serviceCalls (RegistrationHandler.RegisterClient env conn).1 = [] ∧
      sentMessages (RegistrationHandler.RegisterClient env conn).1 = [] := by
  rcases h with h | ⟨data, h, hd⟩
  · simp [RegistrationHandler.RegisterClient, h, serviceCalls, sentMessages]
  · simp [RegistrationHandler.RegisterClient, h, hd, serviceCalls, sentMessages]

/-- C4 at a stream that delivers a two-byte message, which does not decode as a request. -/
theorem RegisterClient_fails_before_service_witness :
    (RegistrationHandler.RegisterClient (exampleEnv (.ok [1, 2])) 5).2
        = some "gob: type mismatch" ∧
      serviceCalls (RegistrationHandler.RegisterClient (exampleEnv (.ok [1, 2])) 5).1 = [] ∧
      sentMessages (RegistrationHandler.RegisterClient (exampleEnv (.ok [1, 2])) 5).1 = [] :=
  RegisterClient_fails_before_service (exampleEnv (.ok [1, 2])) 5 "gob: type mismatch"
    (Or.inr ⟨[1, 2], rfl, rfl⟩)

/-- C6. When the receive, the request decode, the service call and the response encode all
succeed, `RegisterClient` calls the service once, with the decoded request and the calling
connection, sends exactly one message on the stream, the encoding of the response the service
returned, and returns the result of that send. -/
theorem RegisterClient_sends_response {Conn Req Resp : Type}
    (env : RegisterClientEnv Conn Req Resp) (conn : Conn) (data out : Message) (request : Req)
    (response : Resp) (h1 : env.RecvBMessage = .ok data)
    (h2 : env.requestDecode data = .ok request)
    (h3 : env.serviceRegisterClient request conn = .ok response)
    (h4 : env.responseEncode response = .ok out) :
    sentMessages (RegistrationHandler.RegisterClient env conn).1 = [out] ∧
      serviceCalls (RegistrationHandler.RegisterClient env conn).1 = [(request, conn)] ∧
      (RegistrationHandler.RegisterClient env conn).2 = env.SendBMessage out := by
  unfold RegistrationHandler.RegisterClient
  simp only [h1, h2, h3, h4]
  cases hs : env.SendBMessage out <;> simp [serviceCalls, sentMessages]

/-- C6 at a stream that delivers the request `4` on connection `5`: the response `5` is sent. -/
theorem RegisterClient_sends_response_witness :
    sentMessages (RegistrationHandler.RegisterClient (exampleEnv (.ok [4])) 5).1 = [[5]] ∧
      serviceCalls (RegistrationHandler.RegisterClient (exampleEnv (.ok [4])) 5).1 = [(4, 5)] ∧
      (RegistrationHandler.RegisterClient (exampleEnv (.ok [4])) 5).2 = none :=
  RegisterClient_sends_response (exampleEnv (.ok [4])) 5 [4] [5] 4 5 rfl rfl rfl rfl

/-- C7, on the code: for a `FileMetadata` with `IsDir` true and a path at which nothing exists,
`WriteToFile` returns the error of `os.Open` and leaves the file system as it was: no directory
is created. -/
theorem WriteToFile_directory_not_created :
    FileMetadata.WriteToFile exampleNow
        { Name := "photos", Size := 0, Mode := 493, ModTime := exampleModTime, IsDir := true }
        "/srv/photos" []
      = ([], some "open /srv/photos: no such file or directory") := by
  rfl

/-- C8. For every `os.FileInfo` and every prior state of the receiver, the receiver after
`DecodeFromOSFileInfo` equals the value built by `NewFileMetadataFromOSFileInfo`, whose five
fields are the five values of the `os.FileInfo`; so two receivers end equal whatever they held
before. -/
theorem DecodeFromOSFileInfo_eq_New (fi : OSFileInfo) (m m2 : FileMetadata) :
    m.DecodeFromOSFileInfo fi = NewFileMetadataFromOSFileInfo fi ∧
      m.DecodeFromOSFileInfo fi = m2.DecodeFromOSFileInfo fi ∧
      (NewFileMetadataFromOSFileInfo fi).Name = fi.name ∧
      (NewFileMetadataFromOSFileInfo fi).Size = fi.size ∧
      (NewFileMetadataFromOSFileInfo fi).Mode = fi.mode ∧
      (NewFileMetadataFromOSFileInfo fi).ModTime = fi.modTime ∧
      (NewFileMetadataFromOSFileInfo fi).IsDir = fi.isDir :=
  ⟨rfl, rfl, rfl, rfl, rfl, rfl, rfl⟩

/-- C9. `Start` never returns nil and never prints the success line: it returns exactly when the
listen call returns a non-nil error, and returns that error; when the listen call returns nil or
keeps serving, nothing is sent on `errChan` and `Start` stays blocked. -/
theorem Start_never_returns_nil {H QP : Type} (listen : Nat → Nat → Option H → ListenOutcome)
    (p : Protocol H QP) :
    (Protocol.Start listen p).result ≠ some none ∧
      (Protocol.Start listen p).printed = false ∧
      (Protocol.Start listen p).result =
        (match listen p.udpaddr p.tlsConf p.initialTransaction with
          | .returned (some err) => some (some err)
          | .returned none => none
          | .serving => none) ∧
      (Protocol.Start listen p).sent =
        (match listen p.udpaddr p.tlsConf p.initialTransaction with
          | .returned (some err) => [some err]
          | .returned none => []
          | .serving => []) := by
  unfold Protocol.Start
  cases h : listen p.udpaddr p.tlsConf p.initialTransaction with
  | returned err =>
    cases err with
    | none => simp [Protocol.goroutineSends]
    | some e => simp [Protocol.goroutineSends]
  | serving => simp [Protocol.goroutineSends]

/-- C10 as stated fails: the bytes of an all-zero `Client` decode without error into a fresh
receiver and into a receiver whose `UUID` is already set, and the two receivers differ
afterwards. -/
theorem Decode_result_depends_on_receiver :
    ¬ (∀ (r1 r2 s1 s2 : Client) (b : GobStream),
        Client.Decode r1 b = .ok s1 → Client.Decode r2 b = .ok s2 → s1 = s2) := by
  intro h
  have h2 := h { Client.zero with UUID := "c1" } Client.zero { Client.zero with UUID := "c1" }
    Client.zero Client.zero.Encode.bytes rfl rfl
  exact absurd h2 (by decide)

/-- C10, amended.  `Decode` writes only what the bytes carry, and `Encode` leaves out the
zero-valued fields, so the result depends on the bytes and on what the receiver held.  For each
entity type, every value `e` that gob can encode and every receiver `r`, populated or not,
`r.Decode(e.Encode())` returns no error and leaves `r` holding `e.overlay r`: the contents of
`e` in each field where `e` is not zero; what `r` held in each field where `e` is zero (empty
string, zero, false, zero time, slice without element, nil map); for a slice of `e` with
elements, these elements, each decoded over what the backing array of the slice of `r` held at
its position when that slice has the capacity, and into fresh elements otherwise; for a map of
`e` that is not nil, the entries of `r` with those of `e` stored over them. -/
theorem Decode_overlays_receiver (tz : Int → Int) :
    (∀ e r : Client, e.WellTyped → Client.Decode r e.Encode.bytes = .ok (e.overlay r)) ∧
    (∀ e r : RootDirectory, RootDirectory.Decode r e.Encode.bytes = .ok (e.overlay r)) ∧
    (∀ e r : File, e.WellTyped → e.Encodable tz →
      File.Decode tz r (e.Encode tz).bytes = .ok (e.overlay tz r)) ∧
    (∀ e r : FileHistory, e.WellTyped → e.Encodable tz →
      FileHistory.Decode tz r (e.Encode tz).bytes = .ok (e.overlay tz r)) ∧
    (∀ e r : FileMetadata, e.WellTyped → e.Encodable tz →
      FileMetadata.Decode tz r (e.Encode tz).bytes = .ok (e.overlay tz r)) ∧
    (∀ e r : Conflict, e.WellTyped → e.Encodable tz →
      Conflict.Decode tz r (e.Encode tz).bytes = .ok (e.overlay tz r)) ∧
    (∀ e r : Sharing, e.WellTyped → e.Encodable tz →
      Sharing.Decode tz r (e.Encode tz).bytes = .ok (e.overlay tz r)) :=
  ⟨fun e r hw => decodeStruct_gobFields_Client e r hw,
   fun e r => decodeStruct_gobFields_RootDirectory e r,
   fun e r hw he => Decode_Encode_File tz e r hw he,
   fun e r hw he => Decode_Encode_FileHistory tz e r hw he,
   fun e r hw he => Decode_Encode_FileMetadata tz e r hw he,
   fun e r hw he => Decode_Encode_Conflict tz e r hw he,
   fun e r hw he => Decode_Encode_Sharing tz e r hw he⟩

/-- C10 amended, at two populated receivers.  `exampleSharing` decoded into `populatedSharing`:
the receiver keeps its `Owner` and `Count`, fields in which `exampleSharing` is zero, and its
staged version "c7" next to the two received ones.  `exampleClient` decoded into
`populatedClient`: the received root directory lands on the element left in the backing array
and keeps the `Owner` found there. -/
theorem Decode_overlays_receiver_witness :
    (exampleSharing.WellTyped ∧ exampleSharing.Encodable exampleTZ ∧
      Sharing.Decode exampleTZ populatedSharing (exampleSharing.Encode exampleTZ).bytes
        = .ok (exampleSharing.overlay exampleTZ populatedSharing) ∧
      (exampleSharing.overlay exampleTZ populatedSharing).Owner = "c9" ∧
      (exampleSharing.overlay exampleTZ populatedSharing).Count = 2 ∧
      ((exampleSharing.overlay exampleTZ populatedSharing).File.Conflict.StagingFiles.getD []).map
        (fun e => e.1) = ["c7", "c1", ""]) ∧
    (exampleClient.WellTyped ∧
      Client.Decode populatedClient exampleClient.Encode.bytes
        = .ok (exampleClient.overlay populatedClient) ∧
      exampleClient.overlay populatedClient =
        { UUID := "c9", Id := 4, Ip := "10.0.0.1",
          Root := .mk [{ RootDirectory.zero with
                          AfterPath := "/a", Owner := "c0", UUIDs := .mk ["u1"] [] }] [] }) :=
  ⟨⟨by decide, by decide,
      (Decode_overlays_receiver exampleTZ).2.2.2.2.2.2 exampleSharing populatedSharing
        (by decide) (by decide),
      by decide, by decide, by decide⟩,
    ⟨by decide,
      (Decode_overlays_receiver exampleTZ).1 exampleClient populatedClient (by decide),
      by decide⟩⟩

end Quics
